import Mathlib

/-!
Verification of the inline image generation extension (`src/index.js`).

Texts are modelled as `List Char` (JS strings; all relevant characters are
plain code points).  Asynchronous host calls (HEAD existence checks, image
fetches, backend calls, chat persistence) are modelled as explicit oracle
parameters, and effectful orchestration as an explicit step relation.
-/

namespace IIG

/-- JS strings, modelled as lists of characters. -/
abbrev Str := List Char

/-- The character U+007B (opening curly brace). -/
def lbrace : Char := Char.ofNat 123

/-- The character U+007D (closing curly brace). -/
def rbrace : Char := Char.ofNat 125

/-- Helper for `indexOfFrom`: first index `k ≥ k0` at which `pat` occurs in the
suffix `l` (where `l` stands at absolute position `k0`). -/
def firstOccurAux (pat : Str) : Str → Nat → Option Nat
  | [], k => if pat = [] then some k else none
  | c :: cs, k => if pat.isPrefixOf (c :: cs) then some k else firstOccurAux pat cs (k + 1)

/-- JS `text.indexOf(pat, start)`: index of the first occurrence of `pat` at or
after `start`, `none` for -1. -/
def indexOfFrom (text pat : Str) (start : Nat) : Option Nat :=
  if start ≤ text.length then firstOccurAux pat (text.drop start) start
  else if pat = [] then some text.length else none

/-- Does `pat` occur in `text` starting exactly at index `k`? -/
def occursAt (text pat : Str) (k : Nat) : Bool := pat.isPrefixOf (text.drop k)

/-- JS `text.lastIndexOf(pat, start)`: the largest index `k ≤ start` at which
`pat` occurs, `none` for -1. -/
def lastOccurUpTo (text pat : Str) (start : Nat) : Option Nat :=
  ((List.range (start + 1)).filter (fun k => occursAt text pat k)).getLast?

/-- JS `text.substring(a, b)` (arguments clamped to the text and swapped when
out of order, as in JS). -/
def jsSubstring (text : Str) (a b : Nat) : Str := (text.take (max a b)).drop (min a b)

/-- JS `text.includes(pat)`. -/
def containsSub (text pat : Str) : Bool := (indexOfFrom text pat 0).isSome

/-- JS `String.prototype.toLowerCase`, restricted to the simple one-to-one
character mapping (all characters appearing in the program are ASCII). -/
def toLowerStr (s : Str) : Str := s.map Char.toLower

/-- The character class `\s` of JS regular expressions. -/
def jsWhitespace (c : Char) : Bool :=
  c.toNat = 9 || c.toNat = 10 || c.toNat = 11 || c.toNat = 12 || c.toNat = 13 ||
  c.toNat = 32 || c.toNat = 0xa0 || c.toNat = 0x1680 ||
  (0x2000 ≤ c.toNat && c.toNat ≤ 0x200a) ||
  c.toNat = 0x2028 || c.toNat = 0x2029 || c.toNat = 0x202f ||
  c.toNat = 0x205f || c.toNat = 0x3000 || c.toNat = 0xfeff

/-- JS `s.replace(/a/g, b)` for single characters `a`, `b`. -/
def replaceAllChar (s : Str) (a b : Char) : Str := s.map (fun c => if c = a then b else c)

/-! ## JSON values and `JSON.parse`

`JSON.parse` is modelled by a recursive-descent parser over the strict JSON
grammar.  Numbers keep their source lexeme: no claim inspects numeric values,
and modelling IEEE-754 conversion is out of scope. -/

/-- A parsed JSON value. -/
inductive Json where
  | null
  | bool (b : Bool)
  | num (lexeme : Str)
  | str (s : Str)
  | arr (elems : List Json)
  | obj (members : List (Str × Json))

/-- JSON insignificant whitespace (space, tab, LF, CR). -/
def jsonWs (c : Char) : Bool := c.toNat = 32 || c.toNat = 9 || c.toNat = 10 || c.toNat = 13

/-- Drop leading JSON whitespace. -/
def skipWs : Str → Str
  | [] => []
  | c :: cs => if jsonWs c then skipWs cs else c :: cs

/-- Value of a hexadecimal digit. -/
def hexVal? (c : Char) : Option Nat :=
  if '0' ≤ c ∧ c ≤ '9' then some (c.toNat - '0'.toNat)
  else if 'a' ≤ c ∧ c ≤ 'f' then some (c.toNat - 'a'.toNat + 10)
  else if 'A' ≤ c ∧ c ≤ 'F' then some (c.toNat - 'A'.toNat + 10)
  else none

/-- Is `c` a decimal digit? -/
def isDigitCh (c : Char) : Bool := '0' ≤ c && c ≤ '9'

/-- Body of a JSON string literal, after the opening quote: returns the decoded
content and the remainder after the closing quote.  Escapes follow the JSON
grammar; a `\uXXXX` escape naming an invalid scalar degrades via `Char.ofNat`
(real JS builds an unpaired UTF-16 unit there; no claim exercises that). -/
def parseJStringBody : Nat → Str → Option (Str × Str)
  | 0, _ => none
  | fuel + 1, cs =>
    match cs with
    | [] => none
    | c :: rest =>
      if c = '"' then some ([], rest)
      else if c = '\\' then
        match rest with
        | [] => none
        | e :: rest2 =>
          let dec? : Option (Char × Str) :=
            if e = '"' then some ('"', rest2)
            else if e = '\\' then some ('\\', rest2)
            else if e = '/' then some ('/', rest2)
            else if e = 'b' then some (Char.ofNat 8, rest2)
            else if e = 'f' then some (Char.ofNat 12, rest2)
            else if e = 'n' then some (Char.ofNat 10, rest2)
            else if e = 'r' then some (Char.ofNat 13, rest2)
            else if e = 't' then some (Char.ofNat 9, rest2)
            else if e = 'u' then
              match rest2 with
              | h1 :: h2 :: h3 :: h4 :: rest3 =>
                match hexVal? h1, hexVal? h2, hexVal? h3, hexVal? h4 with
                | some v1, some v2, some v3, some v4 =>
                  some (Char.ofNat (((v1 * 16 + v2) * 16 + v3) * 16 + v4), rest3)
                | _, _, _, _ => none
              | _ => none
            else none
          match dec? with
          | some (d, rest') =>
            match parseJStringBody fuel rest' with
            | some (s, r) => some (d :: s, r)
            | none => none
          | none => none
      else if c.toNat < 32 then none
      else
        match parseJStringBody fuel rest with
        | some (s, r) => some (c :: s, r)
        | none => none

/-- JSON number: parses `-?(0|[1-9][0-9]*)(\.[0-9]+)?([eE][+-]?[0-9]+)?` and
returns the lexeme together with the remainder. -/
def parseJNumber (cs : Str) : Option (Json × Str) :=
  let (sign, cs1) : Str × Str :=
    match cs with
    | '-' :: t => (['-'], t)
    | _ => ([], cs)
  match cs1 with
  | [] => none
  | c :: t =>
    let intRest? : Option (Str × Str) :=
      if c = '0' then some (['0'], t)
      else if '1' ≤ c ∧ c ≤ '9' then
        let ds := t.takeWhile isDigitCh
        some (c :: ds, t.drop ds.length)
      else none
    match intRest? with
    | none => none
    | some (intPart, rest1) =>
      let fracRes : Option (Str × Str) :=
        match rest1 with
        | '.' :: u =>
          let ds := u.takeWhile isDigitCh
          if ds = [] then none else some ('.' :: ds, u.drop ds.length)
        | _ => some ([], rest1)
      match fracRes with
      | none => none
      | some (fracPart, rest2) =>
        let expRes : Option (Str × Str) :=
          match rest2 with
          | e :: u =>
            if e = 'e' ∨ e = 'E' then
              let (sg, u2) : Str × Str :=
                match u with
                | '+' :: v => (['+'], v)
                | '-' :: v => (['-'], v)
                | _ => ([], u)
              let ds := u2.takeWhile isDigitCh
              if ds = [] then none else some (e :: (sg ++ ds), u2.drop ds.length)
            else some ([], rest2)
          | [] => some ([], rest2)
        match expRes with
        | none => none
        | some (expPart, rest3) =>
          some (.num (sign ++ intPart ++ fracPart ++ expPart), rest3)

/-- Which production the combined parser `parseJ` is asked for.  The four
productions (value, object members, array elements) are mutually recursive in
the grammar; they are merged into one fuel-indexed function so the kernel can
evaluate it. -/
inductive PReq where
  | value
  | members
  | elems

/-- Result of one `parseJ` production. -/
inductive JRes where
  | val (v : Json)
  | mems (ms : List (Str × Json))
  | els (es : List Json)

/-- The combined recursive-descent JSON parser (structurally recursive on the
fuel, which exceeds the input length at the top-level call). -/
def parseJ : Nat → PReq → Str → Option (JRes × Str)
  | 0, _, _ => none
  | fuel + 1, .value, cs0 =>
    (match skipWs cs0 with
    | [] => none
    | c :: rest =>
      if c = 'n' then
        if "ull".data.isPrefixOf rest then some (.val .null, rest.drop 3) else none
      else if c = 't' then
        if "rue".data.isPrefixOf rest then some (.val (.bool true), rest.drop 3) else none
      else if c = 'f' then
        if "alse".data.isPrefixOf rest then some (.val (.bool false), rest.drop 4) else none
      else if c = '"' then
        match parseJStringBody (cs0.length + 1) rest with
        | some (s, r) => some (.val (.str s), r)
        | none => none
      else if c = lbrace then
        -- object body
        match skipWs rest with
        | [] => none
        | c2 :: rest2 =>
          if c2 = rbrace then some (.val (.obj []), rest2)
          else
            match parseJ fuel .members (c2 :: rest2) with
            | some (.mems ms, r) => some (.val (.obj ms), r)
            | _ => none
      else if c = '[' then
        -- array body
        match skipWs rest with
        | [] => none
        | c2 :: rest2 =>
          if c2 = ']' then some (.val (.arr []), rest2)
          else
            match parseJ fuel .elems (c2 :: rest2) with
            | some (.els es, r) => some (.val (.arr es), r)
            | _ => none
      else if c = '-' ∨ ('0' ≤ c ∧ c ≤ '9') then
        match parseJNumber (c :: rest) with
        | some (v, r) => some (.val v, r)
        | none => none
      else none)
  | fuel + 1, .members, cs =>
    (match skipWs cs with
    | '"' :: rest =>
      match parseJStringBody (cs.length + 1) rest with
      | some (key, r1) =>
        (match skipWs r1 with
        | ':' :: r2 =>
          (match parseJ fuel .value r2 with
          | some (.val v, r3) =>
            (match skipWs r3 with
            | ',' :: r4 =>
              (match parseJ fuel .members r4 with
              | some (.mems ms, r5) => some (.mems ((key, v) :: ms), r5)
              | _ => none)
            | c :: r4 => if c = rbrace then some (.mems [(key, v)], r4) else none
            | [] => none)
          | _ => none)
        | _ => none)
      | none => none
    | _ => none)
  | fuel + 1, .elems, cs =>
    (match parseJ fuel .value cs with
    | some (.val v, r1) =>
      (match skipWs r1 with
      | ',' :: r2 =>
        (match parseJ fuel .elems r2 with
        | some (.els es, r3) => some (.els (v :: es), r3)
        | _ => none)
      | ']' :: r2 => some (.els [v], r2)
      | _ => none)
    | _ => none)

/-- Parse one JSON value and return the remainder of the input. -/
def parseJValue (fuel : Nat) (cs : Str) : Option (Json × Str) :=
  match parseJ fuel .value cs with
  | some (.val v, r) => some (v, r)
  | _ => none

/-- JS `JSON.parse`: one value, optionally surrounded by whitespace, consuming
the whole input; `none` models a thrown `SyntaxError`. -/
def jsonParse (cs : Str) : Option Json :=
  match parseJValue (2 * cs.length + 2) cs with
  | some (v, rest) => if skipWs rest = [] then some v else none
  | none => none

/-- Property read `obj[key]` on a parsed JSON value: objects built by
`JSON.parse` keep the LAST of duplicate keys, hence the last match wins. -/
def jsGet (j : Json) (key : Str) : Option Json :=
  match j with
  | .obj ms => ((ms.filter (fun kv => decide (kv.1 = key))).getLast?).map (·.2)
  | _ => none

/-- Is the mantissa of a JSON number lexeme all zero (the number is falsy)? -/
def numLexemeZero (lex : Str) : Bool :=
  ((lex.takeWhile (fun c => ¬(c = 'e' ∨ c = 'E'))).filter isDigitCh).all (· = '0')

/-- JS truthiness of a parsed JSON value (arrays and objects are always
truthy; a number is falsy exactly when its value is zero, decided here by its
mantissa digits — JSON numbers cannot be NaN). -/
def jsTruthy : Json → Bool
  | .null => false
  | .bool b => b
  | .str s => decide (s ≠ [])
  | .num lex => ¬ numLexemeZero lex
  | .arr _ => true
  | .obj _ => true

/-- JS `a.k || d` on a parsed object: the field when present and truthy,
otherwise the default. -/
def jsOrField (data : Json) (key : Str) (dflt : Json) : Json :=
  match jsGet data key with
  | some v => if jsTruthy v then v else dflt
  | none => dflt

/-- JS string coercion of a parsed JSON value, as used inside template
literals.  Only string values flow into templates in the claims; number
coercion is approximated by the lexeme and array joining is abbreviated. -/
def jsToStr : Json → Str
  | .str s => s
  | .null => "null".data
  | .bool true => "true".data
  | .bool false => "false".data
  | .num lex => lex
  | .arr _ => []
  | .obj _ => "[object Object]".data

/-! ## The brace/string-aware scan

Both directive formats locate the end of an embedded JSON payload with the
same loop (src/index.js:787-816 and 911-940): it tracks a brace counter, an
in-string flag and a pending-escape flag, and stops at the `}` that brings the
counter back to zero outside any string. -/

/-- State of the brace scan loop: `braceCount`, `inString`, `escapeNext`. -/
structure ScanSt where
  braceCount : Int
  inString : Bool
  escapeNext : Bool
deriving DecidableEq

/-- One iteration of the brace scan loop on character `c` (the state update;
termination is `scanCloses`). -/
def scanStep (st : ScanSt) (c : Char) : ScanSt :=
  if st.escapeNext then { st with escapeNext := false }
  else if c = '\\' ∧ st.inString then { st with escapeNext := true }
  else if c = '"' then { st with inString := !st.inString }
  else if ¬st.inString ∧ c = lbrace then { st with braceCount := st.braceCount + 1 }
  else if ¬st.inString ∧ c = rbrace then { st with braceCount := st.braceCount - 1 }
  else st

/-- Does the loop return at character `c` in state `st` (the decremented brace
counter hits zero, outside a string, with no pending escape)? -/
def scanCloses (st : ScanSt) (c : Char) : Bool :=
  decide (st.escapeNext = false ∧ ¬(c = '\\' ∧ st.inString) ∧ c ≠ '"' ∧
    st.inString = false ∧ c = rbrace ∧ st.braceCount - 1 = 0)

/-- The initial scan state. -/
def scanInit : ScanSt := ⟨0, false, false⟩

/-- The scan loop over the suffix `cs` (standing at absolute index `i`) from
state `st`: `some (i+k+1)` when the loop returns at the `k`-th character. -/
def braceScanAux : Str → ScanSt → Nat → Option Nat
  | [], _, _ => none
  | c :: rest, st, i => if scanCloses st c then some (i + 1) else braceScanAux rest (scanStep st c) (i + 1)

/-- The full brace scan: from index `jsonStart` of `text`, the index one past
the closing `}` of the JSON payload (`jsonEnd`), or `none` when the loop runs
off the end of the text. -/
def braceScan (text : Str) (jsonStart : Nat) : Option Nat :=
  braceScanAux (text.drop jsonStart) scanInit jsonStart

/-- The scan state after processing a list of characters. -/
def foldSt (st : ScanSt) (cs : Str) : ScanSt := cs.foldl scanStep st

/-- The scan state just before processing index `i`, having started a brace
scan at index `start` of `text`. -/
def stateAt (text : Str) (start i : Nat) : ScanSt := foldSt scanInit (jsSubstring text start i)

/-! ## Directive records and the tag scanner (`parseImageTags`) -/

/-- A parsed directive (one element of the array `parseImageTags` returns).
Field values other than `fullMatch`/`index`/`isNewFormat`/`existingSrc` are
the raw JSON values the code stores (`data.style || ''`, etc.). -/
structure Tag where
  fullMatch : Str
  index : Nat
  style : Json
  prompt : Json
  aspectRatio : Json
  preset : Json
  imageSize : Json
  quality : Json
  isNewFormat : Bool
  existingSrc : Option Str

/-- The options bag of `parseImageTags`. -/
structure ParseOpts where
  checkExistence : Bool := false
  forceAll : Bool := false

/-- Diagnostics emitted by `parseImageTags` through `iigLog` (the payload of a
parse failure is the first 100 characters of the offending JSON text, as
logged). -/
inductive LogEntry where
  | fileMissing (src : Str)
  | foundTagged
  | taggedParseFailed (json100 : Str)
  | foundLegacy
  | legacyParseFailed (json100 : Str)
deriving DecidableEq

/-- The directive record pushed by the scanner, from the parsed payload
`data` (`data.style || ''`, `data.prompt || ''`, `data.aspect_ratio ||
data.aspectRatio || null`, and so on). -/
def tagFromData (fullMatch : Str) (index : Nat) (data : Json) (isNew : Bool)
    (existingSrc : Option Str) : Tag :=
  { fullMatch := fullMatch, index := index,
    style := jsOrField data "style".data (.str []),
    prompt := jsOrField data "prompt".data (.str []),
    aspectRatio := jsOrField data "aspect_ratio".data (jsOrField data "aspectRatio".data .null),
    preset := jsOrField data "preset".data .null,
    imageSize := jsOrField data "image_size".data (jsOrField data "imageSize".data .null),
    quality := jsOrField data "quality".data .null,
    isNewFormat := isNew, existingSrc := existingSrc }

/-- Character class `[^"'\s>]` of the src-extraction regular expressions. -/
def srcCharOk (c : Char) : Bool := ¬(c = '"' || c = '\'' || jsWhitespace c || c = '>')

/-- Attempt the regular expression `/src\s*=\s*["']?([^"'\s>]+)/i` at the head
of `s`: the captured group, or `none`.  The optional quote backtracks to an
unconsumed quote only if the capture would be empty, in which case the capture
(which excludes quotes) fails there as well. -/
def srcMatchAt (s : Str) : Option Str :=
  match s with
  | a :: b :: c :: rest =>
    if a.toLower = 's' ∧ b.toLower = 'r' ∧ c.toLower = 'c' then
      match rest.dropWhile jsWhitespace with
      | '=' :: r2 =>
        let r3 := r2.dropWhile jsWhitespace
        match r3 with
        | q :: r4 =>
          if q = '"' ∨ q = '\'' then
            (let cap := r4.takeWhile srcCharOk
             if cap = [] then none else some cap)
          else
            (let cap := r3.takeWhile srcCharOk
             if cap = [] then none else some cap)
        | [] => none
      | _ => none
    else none
  | _ => none

/-- First match of `/src\s*=\s*["']?([^"'\s>]+)/i` over `s` (leftmost start
position), as used on `fullImgTag`. -/
def srcAttrMatch : Str → Option Str
  | [] => none
  | c :: rest =>
    match srcMatchAt (c :: rest) with
    | some v => some v
    | none => srcAttrMatch rest

/-- `srcValue`: the captured src attribute value, or the empty string when the
match fails (`srcMatch ? srcMatch[1] : ''`). -/
def srcAttrValue (fullImgTag : Str) : Str := (srcAttrMatch fullImgTag).getD []

/-- `hasMarker`: `srcValue.includes('[IMG:GEN]') || srcValue.includes('[IMG:')`. -/
def srcHasMarker (srcValue : Str) : Bool :=
  containsSub srcValue "[IMG:GEN]".data || containsSub srcValue "[IMG:".data

/-- `hasPath`: `srcValue && srcValue.startsWith('/') && srcValue.length > 5`. -/
def srcHasPath (srcValue : Str) : Bool :=
  !srcValue.isEmpty && (srcValue.head? == some '/') && decide (srcValue.length > 5)

/-- `needsGeneration` for a TAGGED candidate (the if/else chain at
src/index.js:845-860; the existence probe `checkFileExists` is the oracle
`fe`). -/
def taggedNeedsGen (opts : ParseOpts) (fe : Str → Bool) (srcValue : Str) : Bool :=
  if opts.forceAll then true
  else if srcHasMarker srcValue || srcValue.isEmpty then true
  else if srcHasPath srcValue && opts.checkExistence then !fe srcValue
  else false

/-- The WARN diagnostic emitted when the existence probe finds the src path
missing (src/index.js:862). -/
def taggedExistLog (opts : ParseOpts) (fe : Str → Bool) (srcValue : Str) : List LogEntry :=
  if opts.forceAll then []
  else if srcHasMarker srcValue || srcValue.isEmpty then []
  else if srcHasPath srcValue && opts.checkExistence && !fe srcValue then [.fileMissing srcValue]
  else []

/-- Normalization of the TAGGED instruction JSON (src/index.js:867-872).  In
the source file each of the five `.replace` calls has identical pattern and
replacement characters, so the chain is the identity on the payload; it is
reproduced literally. -/
def normalizeTaggedJson (s : Str) : Str :=
  replaceAllChar (replaceAllChar (replaceAllChar (replaceAllChar (replaceAllChar
    s '"' '"') '\'' '\'') '\'' '\'') '"' '"') '&' '&'

/-- The fixed TAGGED-format marker `data-iig-instruction=`. -/
def taggedMarker : Str := "data-iig-instruction=".data

/-- The fixed LEGACY-format marker `[IMG:GEN:`. -/
def legacyMarker : Str := "[IMG:GEN:".data

/-- The TAGGED-format scan loop of `parseImageTags` (src/index.js:770-895),
fuel-indexed; `searchPos` strictly increases every iteration, so any fuel of
at least `text.length + 1 - searchPos` gives the loop's value. -/
def taggedScanAux (text : Str) (opts : ParseOpts) (fe : Str → Bool) :
    Nat → Nat → List Tag × List LogEntry
  | 0, _ => ([], [])
  | fuel + 1, searchPos =>
    match indexOfFrom text taggedMarker searchPos with
    | none => ([], [])
    | some markerPos =>
      match lastOccurUpTo text "<img".data markerPos with
      | none => taggedScanAux text opts fe fuel (markerPos + 1)
      | some imgStart =>
        if markerPos - imgStart > 500 then taggedScanAux text opts fe fuel (markerPos + 1)
        else
          let afterMarker := markerPos + taggedMarker.length
          match indexOfFrom text [lbrace] afterMarker with
          | none => taggedScanAux text opts fe fuel (markerPos + 1)
          | some jsonStart =>
            if jsonStart > afterMarker + 10 then taggedScanAux text opts fe fuel (markerPos + 1)
            else
              match braceScan text jsonStart with
              | none => taggedScanAux text opts fe fuel (markerPos + 1)
              | some jsonEnd =>
                match indexOfFrom text ['>'] jsonEnd with
                | none => taggedScanAux text opts fe fuel (markerPos + 1)
                | some gtPos =>
                  let imgEnd := gtPos + 1
                  let fullImgTag := jsSubstring text imgStart imgEnd
                  let instructionJson := jsSubstring text jsonStart jsonEnd
                  let srcValue := srcAttrValue fullImgTag
                  if containsSub srcValue "error.svg".data && !opts.forceAll then
                    taggedScanAux text opts fe fuel imgEnd
                  else if taggedNeedsGen opts fe srcValue then
                    let (ts, ls) := taggedScanAux text opts fe fuel imgEnd
                    match jsonParse (normalizeTaggedJson instructionJson) with
                    | some data =>
                      (tagFromData fullImgTag imgStart data true
                          (if srcHasPath srcValue then some srcValue else none) :: ts,
                        taggedExistLog opts fe srcValue ++ (.foundTagged :: ls))
                    | none =>
                      (ts, taggedExistLog opts fe srcValue ++
                        (.taggedParseFailed (instructionJson.take 100) :: ls))
                  else taggedScanAux text opts fe fuel imgEnd

/-- The LEGACY-format scan loop of `parseImageTags` (src/index.js:897-979),
fuel-indexed. -/
def legacyScanAux (text : Str) : Nat → Nat → List Tag × List LogEntry
  | 0, _ => ([], [])
  | fuel + 1, searchStart =>
    match indexOfFrom text legacyMarker searchStart with
    | none => ([], [])
    | some markerIndex =>
      let jsonStart := markerIndex + legacyMarker.length
      match braceScan text jsonStart with
      | none => legacyScanAux text fuel jsonStart
      | some jsonEnd =>
        let jsonStr := jsSubstring text jsonStart jsonEnd
        if text.get? jsonEnd ≠ some ']' then legacyScanAux text fuel jsonEnd
        else
          let tagOnly := jsSubstring text markerIndex (jsonEnd + 1)
          let normalizedJson := replaceAllChar jsonStr '\'' '"'
          let (ts, ls) := legacyScanAux text fuel (jsonEnd + 1)
          match jsonParse normalizedJson with
          | some data => (tagFromData tagOnly markerIndex data false none :: ts, .foundLegacy :: ls)
          | none => (ts, .legacyParseFailed (jsonStr.take 100) :: ls)

/-- The TAGGED scan starting at `searchPos` (with canonical fuel). -/
def taggedScanFrom (text : Str) (opts : ParseOpts) (fe : Str → Bool) (searchPos : Nat) :
    List Tag × List LogEntry :=
  taggedScanAux text opts fe (text.length + 1) searchPos

/-- The LEGACY scan starting at `searchStart` (with canonical fuel). -/
def legacyScanFrom (text : Str) (searchStart : Nat) : List Tag × List LogEntry :=
  legacyScanAux text (text.length + 1) searchStart

/-- `parseImageTags(text, options)`: the TAGGED pass followed by the LEGACY
pass over the same text, directives and diagnostics concatenated in emission
order.  `fe` is the `checkFileExists` HEAD-probe oracle. -/
def parseImageTags (text : Str) (opts : ParseOpts) (fe : Str → Bool) :
    List Tag × List LogEntry :=
  let (t1, l1) := taggedScanFrom text opts fe 0
  let (t2, l2) := legacyScanFrom text 0
  (t1 ++ t2, l1 ++ l2)

/-! ## Message patching (`processTag`, src/index.js:1194-1216)

JS `String.prototype.replace` with a string pattern substitutes the first
occurrence only, after running `GetSubstitution` over the replacement text
(`$$`, `$&`, a dollar-backquote, `$'`, and `$n` for existing capture groups
are special). -/

/-- `GetSubstitution`: expand dollar escapes in the replacement `rep`, where
`caps` are the capture groups, `matched` the matched text, `before`/`after`
the text around the match.  A `$` followed by a digit beyond the group count,
or by any other character, is passed through literally.  (The backquote case
compares against `Char.ofNat 96`.) -/
def substDollar (caps : List Str) (matched before after : Str) : Str → Str
  | [] => []
  | c :: rest =>
    if c = '$' then
      match rest with
      | [] => [c]
      | d :: rest2 =>
        if d = '$' then '$' :: substDollar caps matched before after rest2
        else if d = '&' then matched ++ substDollar caps matched before after rest2
        else if d = Char.ofNat 96 then before ++ substDollar caps matched before after rest2
        else if d = '\'' then after ++ substDollar caps matched before after rest2
        else if '1' ≤ d ∧ d ≤ '9' ∧ d.toNat - '0'.toNat ≤ caps.length then
          (caps.drop (d.toNat - '1'.toNat)).headD [] ++ substDollar caps matched before after rest2
        else '$' :: d :: substDollar caps matched before after rest2
    else c :: substDollar caps matched before after rest

/-- JS `s.replace(pat, rep)` with a string pattern: first occurrence only; a
no-op when `pat` does not occur. -/
def jsReplaceFirstLiteral (s pat rep : Str) : Str :=
  match indexOfFrom s pat 0 with
  | none => s
  | some k =>
    s.take k ++ substDollar [] pat (s.take k) (s.drop (k + pat.length)) rep ++
      s.drop (k + pat.length)

/-- Attempt `/src\s*=\s*(['"])[^'"]*\1/i` at the head of `s`: the total match
length and the captured quote.  The value class `[^'"]*` excludes both quote
characters, so backtracking to a shorter value cannot make the backreference
match; the attempt succeeds exactly when the first quote character after the
opening quote equals it. -/
def srcQuoteMatchAt (s : Str) : Option (Nat × Char) :=
  match s with
  | a :: b :: c :: rest =>
    if a.toLower = 's' ∧ b.toLower = 'r' ∧ c.toLower = 'c' then
      let ws1 := rest.takeWhile jsWhitespace
      match rest.drop ws1.length with
      | '=' :: r2 =>
        let ws2 := r2.takeWhile jsWhitespace
        match r2.drop ws2.length with
        | q :: r4 =>
          if q = '"' ∨ q = '\'' then
            let body := r4.takeWhile (fun ch => ¬(ch = '"' ∨ ch = '\''))
            match r4.drop body.length with
            | q2 :: _ =>
              if q2 = q then some (3 + ws1.length + 1 + ws2.length + 1 + body.length + 1, q)
              else none
            | [] => none
          else none
        | [] => none
      | _ => none
    else none
  | _ => none

/-- First (leftmost) match of `/src\s*=\s*(['"])[^'"]*\1/i` over `s`: start
index, length, and captured quote. -/
def srcQuoteFirst : Str → Option (Nat × Nat × Char)
  | [] => none
  | c :: rest =>
    match srcQuoteMatchAt (c :: rest) with
    | some (len, q) => some (0, len, q)
    | none => (srcQuoteFirst rest).map (fun x => (x.1 + 1, x.2.1, x.2.2))

/-- JS `s.replace(/src\s*=\s*(['"])[^'"]*\1/i, rep)`: replace the first match,
with `GetSubstitution` over one capture group. -/
def jsReplaceSrcQuote (s rep : Str) : Str :=
  match srcQuoteFirst s with
  | none => s
  | some (st, len, q) =>
    s.take st ++ substDollar [[q]] (jsSubstring s st (st + len)) (s.take st) (s.drop (st + len)) rep ++
      s.drop (st + len)

/-- The error-sentinel image path (`ERROR_IMAGE_PATH`). -/
def errorImagePath : Str := "/scripts/extensions/third-party/sillyimages/error.svg".data

/-- Successful-outcome patch of `processTag` (src/index.js:1194-1200): TAGGED
directives get their first quoted `src=` assignment rewritten inside
`fullMatch` and the whole `fullMatch` substituted once in the message; LEGACY
directives get `fullMatch` substituted once by the completion marker. -/
def patchSuccess (mes : Str) (tag : Tag) (imagePath : Str) : Str :=
  if tag.isNewFormat then
    jsReplaceFirstLiteral mes tag.fullMatch
      (jsReplaceSrcQuote tag.fullMatch ("src=\"".data ++ imagePath ++ "\"".data))
  else
    jsReplaceFirstLiteral mes tag.fullMatch ("[IMG:✓:".data ++ imagePath ++ "]".data)

/-- Failure-outcome patch of `processTag` (src/index.js:1210-1216): the error
marker truncates the message to 50 characters. -/
def patchError (mes : Str) (tag : Tag) (errMsg : Str) : Str :=
  if tag.isNewFormat then
    jsReplaceFirstLiteral mes tag.fullMatch
      (jsReplaceSrcQuote tag.fullMatch ("src=\"".data ++ errorImagePath ++ "\"".data))
  else
    jsReplaceFirstLiteral mes tag.fullMatch ("[IMG:ERROR:".data ++ errMsg.take 50 ++ "]".data)

/-! ## Retry orchestrator (`generateImageWithRetry`, src/index.js:712-746)

The retry loop after reference assembly.  The backend call is the oracle
`call : Nat → Except Str Str` (attempt index to error message or image data
URL); progress callbacks and timed sleeps are recorded as trace events. -/

/-- Retryability classification (src/index.js:731-736): the error message
contains one of the fixed substrings. -/
def isRetryableMsg (msg : Str) : Bool :=
  containsSub msg "429".data || containsSub msg "503".data || containsSub msg "502".data ||
  containsSub msg "504".data || containsSub msg "timeout".data || containsSub msg "network".data

/-- Observable events of the retry loop, in order: a progress callback before
each attempt, the backend attempt itself, a progress callback before each
sleep, and the sleep with its delay in milliseconds. -/
inductive REvent where
  | statusUpdate (attempt : Nat)
  | attemptCall (attempt : Nat)
  | statusRetry (delayMs : Nat)
  | sleep (delayMs : Nat)
deriving DecidableEq

/-- The retry loop body (`for (let attempt = 0; attempt <= maxRetries;
attempt++)`), fuel-indexed; `generateRetryLoop` supplies fuel
`maxRetries + 1`, which the loop can never exhaust. -/
def retryGo (call : Nat → Except Str Str) (maxRetries baseDelay : Nat) :
    Nat → Nat → Except Str Str × List REvent
  | 0, _ => (.error [], [])
  | fuel + 1, attempt =>
    match call attempt with
    | .ok v => (.ok v, [.statusUpdate attempt, .attemptCall attempt])
    | .error e =>
      if ¬isRetryableMsg e ∨ attempt = maxRetries then
        (.error e, [.statusUpdate attempt, .attemptCall attempt])
      else
        let delay := baseDelay * 2 ^ attempt
        let (res, evs) := retryGo call maxRetries baseDelay fuel (attempt + 1)
        (res, [.statusUpdate attempt, .attemptCall attempt, .statusRetry delay, .sleep delay] ++ evs)

/-- The retry loop of `generateImageWithRetry`: result (the final error is
re-thrown after the loop) and the ordered event trace. -/
def generateRetryLoop (call : Nat → Except Str Str) (maxRetries baseDelay : Nat) :
    Except Str Str × List REvent :=
  retryGo call maxRetries baseDelay (maxRetries + 1) 0

/-! ## Configuration and backend selection -/

/-- The extension settings fields used by the modelled components
(src/index.js:39-63). -/
structure Settings where
  enabled : Bool
  apiType : Str
  endpoint : Str
  apiKey : Str
  model : Str
  size : Str
  quality : Str
  maxRetries : Nat
  retryDelay : Nat
  aspectRatio : Str
  imageSize : Str
  sendPreviousImages : Bool
  maxPreviousImages : Nat
  sendStyleReference : Bool
  sendNpcReferences : Bool
  npcReferenceImages : List (Str × Str)

/-- `isGeminiModel` (src/index.js:94-97). -/
def isGeminiModel (modelId : Str) : Bool :=
  containsSub (toLowerStr modelId) "nano-banana".data

/-- The three backend adapters. -/
inductive Backend where
  | openai
  | gemini
  | naistera
deriving DecidableEq

/-- Backend dispatch of the retry loop body (src/index.js:716-722). -/
def selectBackend (s : Settings) : Backend :=
  if s.apiType = "naistera".data then .naistera
  else if s.apiType = "gemini".data ∨ isGeminiModel s.model then .gemini
  else .openai

/-- The per-directive options bag passed from `processTag` into the
generation pipeline. -/
structure GenOptions where
  aspectRatio : Json := .null
  imageSize : Json := .null
  quality : Json := .null
  preset : Json := .null
  messageId : Nat := 0

/-- `[Style: ...]`-prefixed prompt (`style ? `...` : prompt`), shared by all
three adapters. -/
def styledPrompt (prompt style : Json) : Str :=
  if jsTruthy style then "[Style: ".data ++ jsToStr style ++ "] ".data ++ jsToStr prompt
  else jsToStr prompt

/-! ## Generic-REST (OpenAI-compatible) adapter (src/index.js:420-476) -/

/-- Request body of `generateImageOpenAI`. -/
structure OpenAIBody where
  model : Str
  prompt : Str
  n : Nat
  size : Str
  quality : Json
  responseFormat : Str
  image : Option Str

/-- Size resolution of `generateImageOpenAI` (src/index.js:427-432): the three
recognized aspect ratios override the configured size. -/
def openAISize (settings : Settings) (optAR : Json) : Str :=
  if jsTruthy optAR then
    match optAR with
    | .str s =>
      if s = "16:9".data then "1792x1024".data
      else if s = "9:16".data then "1024x1792".data
      else if s = "1:1".data then "1024x1024".data
      else settings.size
    | _ => settings.size
  else settings.size

/-- The outbound request body built by `generateImageOpenAI`
(src/index.js:434-445). -/
def openAIRequestBody (settings : Settings) (prompt style : Json)
    (referenceImages : List Str) (opts : GenOptions) : OpenAIBody :=
  { model := settings.model,
    prompt := styledPrompt prompt style,
    n := 1,
    size := openAISize settings opts.aspectRatio,
    quality := if jsTruthy opts.quality then opts.quality else .str settings.quality,
    responseFormat := "b64_json".data,
    image :=
      match referenceImages with
      | r :: _ => some ("data:image/png;base64,".data ++ r)
      | [] => none }

/-! ## Multimodal-chat (Gemini) adapter (src/index.js:477-545) -/

/-- `VALID_ASPECT_RATIOS` (src/index.js:477). -/
def validAspectRatios : List Str :=
  ["1:1", "2:3", "3:2", "3:4", "4:3", "4:5", "5:4", "9:16", "16:9", "21:9"].map String.data

/-- `VALID_IMAGE_SIZES` (src/index.js:478). -/
def validImageSizes : List Str := ["1K", "2K", "4K"].map String.data

/-- Aspect-ratio resolution of `generateImageGemini` (src/index.js:485-488):
`options.aspectRatio || settings.aspectRatio || '1:1'`, then re-validated
against the allow-list with fallback to the configured value and then to
`'1:1'`. -/
def geminiAspectRatio (optAR : Json) (cfg : Str) : Str :=
  let ar : Json := if jsTruthy optAR then optAR else if ¬cfg.isEmpty then .str cfg else .str "1:1".data
  match ar with
  | .str s =>
    if s ∈ validAspectRatios then s
    else if cfg ∈ validAspectRatios then cfg else "1:1".data
  | _ => if cfg ∈ validAspectRatios then cfg else "1:1".data

/-- Resolution-tier resolution of `generateImageGemini` (src/index.js:490-493),
analogous, with universal default `'1K'`. -/
def geminiImageSize (optSZ : Json) (cfg : Str) : Str :=
  let sz : Json := if jsTruthy optSZ then optSZ else if ¬cfg.isEmpty then .str cfg else .str "1K".data
  match sz with
  | .str s =>
    if s ∈ validImageSizes then s
    else if cfg ∈ validImageSizes then cfg else "1K".data
  | _ => if cfg ∈ validImageSizes then cfg else "1K".data

/-- One content part of the Gemini request. -/
inductive GPart where
  | inlineData (mimeType b64 : Str)
  | text (t : Str)

/-- Decimal rendering of a natural number (for the template interpolation of
`referenceImages.length`). -/
def natStr (n : Nat) : Str := (Nat.repr n).data

/-- The reference-usage instruction block of `generateImageGemini`
(src/index.js:512-527), reproduced verbatim including its trailing blank
line. -/
def geminiRefInstruction (n : Nat) : Str :=
  ("[CRITICAL REFERENCE INSTRUCTIONS:\nYou are provided with ".data ++ natStr n ++
   " reference image(s). These MUST be used as follows:\n- Reference 1: This is the PRIMARY STYLE/CHARACTER reference. Copy the exact art style, color palette, lighting, and if a character - their complete appearance (face, hair, body, clothing).\n".data ++
   (if n ≥ 2 then "- Reference 2+: Additional character references or previous images from this scene. Maintain EXACT visual consistency with these.".data else []) ++
   "\n\nMANDATORY:\n- Match the art style EXACTLY (brushwork, colors, rendering technique)\n- Character faces MUST look identical to references\n- Clothing and accessories MUST match unless explicitly changed in prompt\n- Maintain the same level of detail and quality\n\nDO NOT: Create generic/different looking characters. Every named character MUST match their reference exactly.]\n\n".data)

/-- The text part of the Gemini request: the instruction block is prefixed to
the styled prompt exactly when references are present (src/index.js:510-529). -/
def geminiFullPrompt (referenceImages : List Str) (prompt style : Json) : Str :=
  let base := styledPrompt prompt style
  if referenceImages.length > 0 then geminiRefInstruction referenceImages.length ++ base
  else base

/-- The ordered content-part list of the Gemini request (src/index.js:500-531):
at most the first four reference images as inline-data parts, then the single
text part. -/
def geminiParts (referenceImages : List Str) (prompt style : Json) : List GPart :=
  (referenceImages.take 4).map (fun b64 => GPart.inlineData "image/png".data b64) ++
    [GPart.text (geminiFullPrompt referenceImages prompt style)]

/-! ## Reference collector (`collectReferenceImages`, src/index.js:345-418)

Image retrieval (`imageUrlToDataUrl`) is the oracle `fetchDU`; it returns
`none` when the fetch fails (the code then omits the item). -/

/-- A chat message (role flag and text). -/
structure Msg where
  mes : Str
  is_user : Bool

/-- Character class test used by the history regular expression
`/src=["']?(\/user\/images\/[^"'\s>]+)["']?/gi`: attempt a match at the head
of `s`, returning the captured path and the total match length. -/
def imgSrcMatchAt (s : Str) : Option (Str × Nat) :=
  match s with
  | a :: b :: c :: d :: rest =>
    if a.toLower = 's' ∧ b.toLower = 'r' ∧ c.toLower = 'c' ∧ d = '=' then
      let tryBody : Str → Nat → Option (Str × Nat) := fun body quoteLen =>
        if "/user/images/".data.isPrefixOf body then
          let after := body.drop 13
          let cap := after.takeWhile srcCharOk
          if cap = [] then none
          else
            let closeLen :=
              match after.drop cap.length with
              | q :: _ => if q = '"' ∨ q = '\'' then 1 else 0
              | [] => 0
            some ("/user/images/".data ++ cap, 4 + quoteLen + 13 + cap.length + closeLen)
        else none
      match rest with
      | q :: body =>
        if q = '"' ∨ q = '\'' then
          match tryBody body 1 with
          | some r => some r
          | none => tryBody (q :: body) 0
        else tryBody rest 0
      | [] => none
    else none
  | _ => none

/-- Global `exec` loop of the history regular expression over one message
text: all captured paths, left to right, continuing after each match. -/
def imgSrcPathsAux : Nat → Str → List Str
  | 0, _ => []
  | fuel + 1, s =>
    match s with
    | [] => []
    | c :: rest =>
      match imgSrcMatchAt (c :: rest) with
      | some (p, len) => p :: imgSrcPathsAux fuel ((c :: rest).drop len)
      | none => imgSrcPathsAux fuel rest

/-- All `/user/images/...` src paths in a message text. -/
def imgSrcPaths (mes : Str) : List Str := imgSrcPathsAux (mes.length + 1) mes

/-- The `generatedImages` list (src/index.js:354-374): scan the chat newest
message first, skip the message being generated for and empty messages, keep
paths containing `iig_`, each tagged with its message index. -/
def generatedImagesIn (chat : List Msg) (currentMessageId : Nat) : List (Str × Nat) :=
  ((List.range chat.length).reverse).foldl
    (fun acc i =>
      if i = currentMessageId then acc
      else
        match chat[i]? with
        | none => acc
        | some m =>
          if m.mes.isEmpty then acc
          else acc ++ ((imgSrcPaths m.mes).filter
            (fun p => containsSub p "iig_".data)).map (fun p => (p, i)))
    []

/-- Result record of `collectReferenceImages` (`{ previous, style, npcs }`). -/
structure RefResult where
  previous : List Str
  style : Option Str
  npcs : List Str

/-- `collectReferenceImages(prompt, currentMessageId)` (src/index.js:345-418):
style reference = the oldest collected image (when enabled and any exist);
previous references = the first `min(maxPreviousImages || 2, 4)` collected
images, bounded by the count remaining after the style claim, fetch failures
omitted; NPC references = configured entries whose name occurs
case-insensitively in the prompt. -/
def collectReferenceImages (settings : Settings) (fetchDU : Str → Option Str)
    (chat : List Msg) (prompt : Str) (currentMessageId : Nat) : RefResult :=
  if chat.isEmpty then ⟨[], none, []⟩
  else
    let generatedImages := generatedImagesIn chat currentMessageId
    let style : Option Str :=
      if settings.sendStyleReference ∧ generatedImages.length > 0 then
        match generatedImages.getLast? with
        | some pi => fetchDU pi.1
        | none => none
      else none
    let previous : List Str :=
      if settings.sendPreviousImages ∧ generatedImages.length > 0 then
        let maxPrev := min (if settings.maxPreviousImages = 0 then 2 else settings.maxPreviousImages) 4
        let endIdx := min maxPrev (generatedImages.length - (if style.isSome then 1 else 0))
        (generatedImages.take endIdx).filterMap (fun pi => fetchDU pi.1)
      else []
    let npcs : List Str :=
      if settings.sendNpcReferences then
        settings.npcReferenceImages.filterMap (fun nv =>
          if nv.2.isEmpty then none
          else if containsSub (toLowerStr prompt) (toLowerStr nv.1) then fetchDU nv.2
          else none)
      else []
    ⟨previous, style, npcs⟩

/-! ## Orchestration and the in-flight marker
(`processMessageTags` src/index.js:1015-1229, `regenerateMessageImages`
src/index.js:1231-1311)

JS runs single-threaded; control can change hands only at `await` points.
Each invocation is modelled as a task whose program counter names the next
code segment between awaits, and a scheduler interleaves task steps.  The
per-directive generation/save awaits inside one batch are collapsed into one
segment: they only interleave effects of the *same* invocation, which the
claims do not distinguish.  Generation is modelled on its success path with
the stored path oracle `imagePath`. -/

/-- Shared-state side effects, in emission order: the `processingMessages`
marker updates, one backend generation call per directive, and the completion
of `saveChat` (persistence). -/
inductive Effect where
  | setMarker (mid : Nat)
  | generate (mid : Nat) (tagIndex : Nat)
  | persist (mid : Nat)
  | clearMarker (mid : Nat)
deriving DecidableEq

/-- The shared mutable state: the chat store, the `processingMessages` set,
and the cumulative effect trace. -/
structure SysState where
  chat : List Msg
  processing : List Nat
  effects : List Effect

/-- Environment oracles: the enabled flag, the existence probe, and the
stored path returned by `saveImageToFile` for directive `tagIndex` of message
`mid`. -/
structure Env where
  enabled : Bool
  fe : Str → Bool
  imagePath : Nat → Nat → Str

/-- Set-insert into the `processingMessages` model. -/
def insertId (mid : Nat) (l : List Nat) : List Nat := if mid ∈ l then l else l ++ [mid]

/-- Update the text of message `mid` in the chat store. -/
def patchChatMes (chat : List Msg) (mid : Nat) (f : Str → Str) : List Msg :=
  match chat[mid]? with
  | some m => chat.set mid { m with mes := f m.mes }
  | none => chat

/-- Run the collapsed generation/patch segment for every directive of the
batch (each `processTag` on its success path: one generation call, then the
message-text patch). -/
def applyGenBatch (env : Env) (mid : Nat) : List Tag → Nat → SysState → SysState
  | [], _, s => s
  | t :: ts, i, s =>
    applyGenBatch env mid ts (i + 1)
      { s with
        effects := s.effects ++ [.generate mid i],
        chat := patchChatMes s.chat mid (fun mes => patchSuccess mes t (env.imagePath mid i)) }

/-- A task: one in-flight invocation, identified by the code segment at which
it will resume.

`processMessageTags`: `pmtStart` runs the synchronous prologue (enabled
check, in-flight check at src/index.js:1021 — *before* any marker is set) and
starts the awaited parse; `pmtParsed` resumes after the parse, sets the
marker (src/index.js:1036) and dispatches the batch; `pmtGen` is the batch
resolving; `pmtSave` resumes after `saveChat`, clearing the marker in the
`finally` (src/index.js:1224-1227).

`regenerateMessageImages` has no in-flight check; it clears the marker
*before* awaiting `saveChat` (src/index.js:1307-1308). -/
inductive Task where
  | pmtStart (mid : Nat)
  | pmtParsed (mid : Nat) (tags : List Tag)
  | pmtGen (mid : Nat) (tags : List Tag)
  | pmtSave (mid : Nat)
  | regenStart (mid : Nat)
  | regenParsed (mid : Nat) (tags : List Tag)
  | regenGen (mid : Nat) (tags : List Tag)
  | regenSave (mid : Nat)

/-- One scheduled step of a task: the next synchronous segment, returning the
new shared state and the continuation task (or `none` when the invocation
returns). -/
def stepSys (env : Env) (s : SysState) : Task → SysState × Option Task
  | .pmtStart mid =>
    if env.enabled = false then (s, none)
    else if mid ∈ s.processing then (s, none)
    else
      match s.chat[mid]? with
      | none => (s, none)
      | some m =>
        if m.is_user then (s, none)
        else (s, some (.pmtParsed mid (parseImageTags m.mes ⟨true, false⟩ env.fe).1))
  | .pmtParsed mid tags =>
    if tags.isEmpty then (s, none)
    else
      ({ s with processing := insertId mid s.processing, effects := s.effects ++ [.setMarker mid] },
        some (.pmtGen mid tags))
  | .pmtGen mid tags => (applyGenBatch env mid tags 0 s, some (.pmtSave mid))
  | .pmtSave mid =>
    ({ s with
        processing := s.processing.erase mid,
        effects := s.effects ++ [.persist mid, .clearMarker mid] }, none)
  | .regenStart mid =>
    match s.chat[mid]? with
    | none => (s, none)
    | some m => (s, some (.regenParsed mid (parseImageTags m.mes ⟨false, true⟩ env.fe).1))
  | .regenParsed mid tags =>
    if tags.isEmpty then (s, none)
    else
      ({ s with processing := insertId mid s.processing, effects := s.effects ++ [.setMarker mid] },
        some (.regenGen mid tags))
  | .regenGen mid tags =>
    let s' := applyGenBatch env mid tags 0 s
    ({ s' with
        processing := s'.processing.erase mid,
        effects := s'.effects ++ [.clearMarker mid] },
      some (.regenSave mid))
  | .regenSave mid => ({ s with effects := s.effects ++ [.persist mid] }, none)

/-- The cooperative scheduler: at each schedule entry, step the named live
task (entries naming finished or absent tasks are skipped). -/
def runSys (env : Env) : SysState → List (Option Task) → List Nat → SysState
  | s, _, [] => s
  | s, tasks, pick :: sched =>
    match tasks[pick]? with
    | some (some t) =>
      let (s', t') := stepSys env s t
      runSys env s' (tasks.set pick t') sched
    | _ => runSys env s tasks sched

/-- Count the generation calls for message `mid` in an effect trace. -/
def countGenerates (mid : Nat) (effects : List Effect) : Nat :=
  effects.countP (fun e => match e with | .generate m _ => m = mid | _ => false)

/-- Count the persistence completions for message `mid` in an effect trace. -/
def countPersists (mid : Nat) (effects : List Effect) : Nat :=
  effects.countP (fun e => match e with | .persist m => m = mid | _ => false)

/-- Count the marker clears for message `mid` in an effect trace. -/
def countClears (mid : Nat) (effects : List Effect) : Nat :=
  effects.countP (fun e => match e with | .clearMarker m => m = mid | _ => false)

/-- Is the task an invocation of `processMessageTags` (as opposed to
`regenerateMessageImages`)? -/
def Task.isPmt : Task → Bool
  | .pmtStart _ | .pmtParsed _ _ | .pmtGen _ _ | .pmtSave _ => true
  | _ => false

/-! ## Supporting lemmas -/

theorem firstOccurAux_some (pat : Str) :
    ∀ (l : Str) (k0 k : Nat), firstOccurAux pat l k0 = some k →
      k0 ≤ k ∧ k - k0 + pat.length ≤ l.length := by
  intro l
  induction l with
  | nil =>
    intro k0 k h
    simp only [firstOccurAux] at h
    by_cases hp : pat = []
    · simp [hp] at h ⊢; omega
    · simp [hp] at h
  | cons c cs ih =>
    intro k0 k h
    simp only [firstOccurAux] at h
    by_cases hp : pat.isPrefixOf (c :: cs)
    · simp [hp] at h
      have hlen : pat.length ≤ (c :: cs).length :=
        List.IsPrefix.length_le (List.isPrefixOf_iff_prefix.mp hp)
      subst h
      simpa using hlen
    · simp [hp] at h
      have := ih (k0 + 1) k h
      simp only [List.length_cons]
      omega

theorem indexOfFrom_some_bounds {text pat : Str} {start k : Nat} (hpat : pat ≠ [])
    (h : indexOfFrom text pat start = some k) :
    start ≤ k ∧ k + pat.length ≤ text.length := by
  unfold indexOfFrom at h
  by_cases hs : start ≤ text.length
  · simp only [hs, if_pos] at h
    have := firstOccurAux_some pat (text.drop start) start k h
    have hd : (text.drop start).length = text.length - start := List.length_drop ..
    omega
  · simp [hs, hpat] at h

theorem braceScanAux_bounds :
    ∀ (cs : Str) (st : ScanSt) (i e : Nat), braceScanAux cs st i = some e →
      i < e ∧ e ≤ i + cs.length := by
  intro cs
  induction cs with
  | nil => intro st i e h; simp [braceScanAux] at h
  | cons c rest ih =>
    intro st i e h
    simp only [braceScanAux] at h
    by_cases hc : scanCloses st c
    · simp [hc] at h; simp only [List.length_cons]; omega
    · simp [hc] at h
      have := ih (scanStep st c) (i + 1) e h
      simp only [List.length_cons]
      omega

theorem braceScan_bounds {text : Str} {j e : Nat} (h : braceScan text j = some e) :
    j < e ∧ e ≤ text.length := by
  unfold braceScan at h
  have hb := braceScanAux_bounds (text.drop j) scanInit j e h
  have hd : (text.drop j).length = text.length - j := List.length_drop ..
  by_cases hj : j ≤ text.length
  · omega
  · have : text.drop j = [] := List.drop_eq_nil_of_le (by omega)
    rw [this] at h
    simp [braceScanAux] at h

theorem braceScanAux_some_spec :
    ∀ (cs : Str) (st : ScanSt) (i e : Nat), braceScanAux cs st i = some e →
      ∃ k c, cs.get? k = some c ∧ e = i + k + 1 ∧
        scanCloses (foldSt st (cs.take k)) c = true ∧
        ∀ j c', j < k → cs.get? j = some c' →
          scanCloses (foldSt st (cs.take j)) c' = false := by
  intro cs
  induction cs with
  | nil => intro st i e h; simp [braceScanAux] at h
  | cons c rest ih =>
    intro st i e h
    simp only [braceScanAux] at h
    by_cases hc : scanCloses st c
    · simp [hc] at h
      refine ⟨0, c, rfl, by omega, ?_, ?_⟩
      · simpa [foldSt] using hc
      · intro j c' hj; omega
    · simp [hc] at h
      obtain ⟨k, ch, hget, he, hclose, hmin⟩ := ih (scanStep st c) (i + 1) e h
      refine ⟨k + 1, ch, by simpa using hget, by omega, ?_, ?_⟩
      · simpa [foldSt, List.foldl] using hclose
      · intro j c' hj hget'
        match j, hget' with
        | 0, hget' =>
          rw [List.get?_cons_zero, Option.some.injEq] at hget'
          subst hget'
          simpa [foldSt] using hc
        | j' + 1, hget' =>
          rw [List.get?_cons_succ] at hget'
          have := hmin j' c' (by omega) hget'
          simpa [foldSt, List.foldl] using this

theorem indexOfFrom_none_of_big {text pat : Str} {s : Nat} (hpat : pat ≠ [])
    (hs : text.length + 1 ≤ s) : indexOfFrom text pat s = none := by
  cases h : indexOfFrom text pat s with
  | none => rfl
  | some m =>
    have hb := indexOfFrom_some_bounds hpat h
    have hlen : 1 ≤ pat.length := List.length_pos.mpr hpat
    omega

theorem legacyScanAux_fuel_eq (text : Str) :
    ∀ f1 f2 s, text.length + 1 - s ≤ f1 → text.length + 1 - s ≤ f2 →
      legacyScanAux text f1 s = legacyScanAux text f2 s := by
  have hne : legacyMarker ≠ [] := by decide
  have hlen : legacyMarker.length = 9 := rfl
  intro f1
  induction f1 with
  | zero =>
    intro f2 s h1 _
    have hnone : indexOfFrom text legacyMarker s = none :=
      indexOfFrom_none_of_big hne (by omega)
    cases f2 with
    | zero => rfl
    | succ f2' => simp [legacyScanAux, hnone]
  | succ f1' ih =>
    intro f2 s h1 h2
    by_cases hs : text.length + 1 ≤ s
    · have hnone : indexOfFrom text legacyMarker s = none :=
        indexOfFrom_none_of_big hne hs
      cases f2 with
      | zero => simp [legacyScanAux, hnone]
      | succ f2' => simp [legacyScanAux, hnone]
    · cases f2 with
      | zero => omega
      | succ f2' =>
        simp only [legacyScanAux]
        cases hidx : indexOfFrom text legacyMarker s with
        | none => rfl
        | some m =>
          have hmb := indexOfFrom_some_bounds hne hidx
          simp only [hidx]
          cases hbs : braceScan text (m + legacyMarker.length) with
          | none =>
            simp only [hbs]
            exact ih f2' (m + legacyMarker.length) (by omega) (by omega)
          | some e =>
            have heb := braceScan_bounds hbs
            simp only [hbs]
            by_cases hj : text.get? e = some ']'
            · have hj' : text[e]? = some ']' := by
                rw [← List.get?_eq_getElem?]; exact hj
              simp only [List.get?_eq_getElem?, hj', ne_eq, not_true_eq_false, if_false,
                ite_false]
              rw [ih f2' (e + 1) (by omega) (by omega)]
            · have hj' : ¬(text[e]? = some ']') := by
                rw [← List.get?_eq_getElem?]; exact hj
              simp only [List.get?_eq_getElem?, ne_eq, hj', not_false_eq_true, if_true,
                ite_true]
              exact ih f2' e (by omega) (by omega)

theorem taggedScanAux_fuel_eq (text : Str) (opts : ParseOpts) (fe : Str → Bool) :
    ∀ f1 f2 s, text.length + 1 - s ≤ f1 → text.length + 1 - s ≤ f2 →
      taggedScanAux text opts fe f1 s = taggedScanAux text opts fe f2 s := by
  have hne : taggedMarker ≠ [] := by decide
  have hlen : taggedMarker.length = 21 := rfl
  intro f1
  induction f1 with
  | zero =>
    intro f2 s h1 _
    have hnone : indexOfFrom text taggedMarker s = none :=
      indexOfFrom_none_of_big hne (by omega)
    cases f2 with
    | zero => rfl
    | succ f2' => simp [taggedScanAux, hnone]
  | succ f1' ih =>
    intro f2 s h1 h2
    by_cases hs : text.length + 1 ≤ s
    · have hnone : indexOfFrom text taggedMarker s = none :=
        indexOfFrom_none_of_big hne hs
      cases f2 with
      | zero => simp [taggedScanAux, hnone]
      | succ f2' => simp [taggedScanAux, hnone]
    · cases f2 with
      | zero => omega
      | succ f2' =>
        simp only [taggedScanAux]
        cases hidx : indexOfFrom text taggedMarker s with
        | none => rfl
        | some mp =>
          have hmb := indexOfFrom_some_bounds hne hidx
          simp only [hidx]
          cases hli : lastOccurUpTo text "<img".data mp with
          | none => exact ih f2' (mp + 1) (by omega) (by omega)
          | some imgStart =>
            simp only [hli]
            by_cases h500 : mp - imgStart > 500
            · rw [if_pos h500, if_pos h500]
              exact ih f2' (mp + 1) (by omega) (by omega)
            · rw [if_neg h500, if_neg h500]
              cases hjs : indexOfFrom text [lbrace] (mp + taggedMarker.length) with
              | none => exact ih f2' (mp + 1) (by omega) (by omega)
              | some jsonStart =>
                have hjsb := indexOfFrom_some_bounds (by decide) hjs
                simp only [hjs]
                by_cases h10 : jsonStart > mp + taggedMarker.length + 10
                · rw [if_pos h10, if_pos h10]
                  exact ih f2' (mp + 1) (by omega) (by omega)
                · rw [if_neg h10, if_neg h10]
                  cases hbs : braceScan text jsonStart with
                  | none => exact ih f2' (mp + 1) (by omega) (by omega)
                  | some jsonEnd =>
                    have heb := braceScan_bounds hbs
                    simp only [hbs]
                    cases hgt : indexOfFrom text ['>'] jsonEnd with
                    | none => exact ih f2' (mp + 1) (by omega) (by omega)
                    | some gtPos =>
                      have hgtb := indexOfFrom_some_bounds (by decide) hgt
                      simp only [hgt]
                      by_cases herr :
                          (containsSub
                              (srcAttrValue (jsSubstring text imgStart (gtPos + 1)))
                              "error.svg".data
                            && !opts.forceAll) = true
                      · rw [if_pos herr, if_pos herr]
                        exact ih f2' (gtPos + 1) (by omega) (by omega)
                      · rw [if_neg herr, if_neg herr]
                        by_cases hng :
                            taggedNeedsGen opts fe
                              (srcAttrValue (jsSubstring text imgStart (gtPos + 1))) = true
                        · rw [if_pos hng, if_pos hng,
                            ih f2' (gtPos + 1) (by omega) (by omega)]
                        · rw [if_neg hng, if_neg hng]
                          exact ih f2' (gtPos + 1) (by omega) (by omega)

/-- Both scans give the loop value at any sufficient fuel. -/
theorem legacyScanFrom_eq_aux (text : Str) {fuel s : Nat}
    (h : text.length + 1 - s ≤ fuel) :
    legacyScanAux text fuel s = legacyScanFrom text s :=
  legacyScanAux_fuel_eq text fuel (text.length + 1) s h (by omega)

theorem taggedScanFrom_eq_aux (text : Str) (opts : ParseOpts) (fe : Str → Bool) {fuel s : Nat}
    (h : text.length + 1 - s ≤ fuel) :
    taggedScanAux text opts fe fuel s = taggedScanFrom text opts fe s :=
  taggedScanAux_fuel_eq text opts fe fuel (text.length + 1) s h (by omega)

/-- LEGACY scan, candidate with unbalanced braces: silently re-searched from
just after the marker (src/index.js:942-945 — note: no diagnostic). -/
theorem legacyScanFrom_skip_unbalanced {text : Str} {s m : Nat}
    (hidx : indexOfFrom text legacyMarker s = some m)
    (hbs : braceScan text (m + legacyMarker.length) = none) :
    legacyScanFrom text s = legacyScanFrom text (m + legacyMarker.length) := by
  have hmb := indexOfFrom_some_bounds (show legacyMarker ≠ [] by decide) hidx
  have hlen : legacyMarker.length = 9 := rfl
  have step : legacyScanAux text (text.length + 1) s =
      legacyScanAux text text.length (m + legacyMarker.length) := by
    simp only [legacyScanAux, hidx, hbs]
  rw [legacyScanFrom, step]
  exact legacyScanFrom_eq_aux text (by omega)

/-- LEGACY scan, candidate whose closing brace is not followed by `]`:
rejected, scan resumes at the closing brace (src/index.js:949-952). -/
theorem legacyScanFrom_skip_nobracket {text : Str} {s m e : Nat}
    (hidx : indexOfFrom text legacyMarker s = some m)
    (hbs : braceScan text (m + legacyMarker.length) = some e)
    (hj : text.get? e ≠ some ']') :
    legacyScanFrom text s = legacyScanFrom text e := by
  have hmb := indexOfFrom_some_bounds (show legacyMarker ≠ [] by decide) hidx
  have hlen : legacyMarker.length = 9 := rfl
  have heb := braceScan_bounds hbs
  have step : legacyScanAux text (text.length + 1) s = legacyScanAux text text.length e := by
    simp only [legacyScanAux, hidx, hbs]
    rw [if_pos hj]
  rw [legacyScanFrom, step]
  exact legacyScanFrom_eq_aux text (by omega)

/-- LEGACY scan, accepted candidate whose normalized payload fails
`JSON.parse`: no directive, one WARN diagnostic carrying the first 100
characters of the raw payload, scan resumes after the `]`
(src/index.js:974-976). -/
theorem legacyScanFrom_parse_fail {text : Str} {s m e : Nat}
    (hidx : indexOfFrom text legacyMarker s = some m)
    (hbs : braceScan text (m + legacyMarker.length) = some e)
    (hj : text.get? e = some ']')
    (hp : jsonParse (replaceAllChar (jsSubstring text (m + legacyMarker.length) e) '\'' '"') =
      none) :
    (legacyScanFrom text s).1 = (legacyScanFrom text (e + 1)).1 ∧
    (legacyScanFrom text s).2 =
      .legacyParseFailed ((jsSubstring text (m + legacyMarker.length) e).take 100) ::
        (legacyScanFrom text (e + 1)).2 := by
  have hmb := indexOfFrom_some_bounds (show legacyMarker ≠ [] by decide) hidx
  have hlen : legacyMarker.length = 9 := rfl
  have heb := braceScan_bounds hbs
  have hcond : ¬(text.get? e ≠ some ']') := not_not_intro hj
  have hrec : legacyScanAux text text.length (e + 1) = legacyScanFrom text (e + 1) :=
    legacyScanFrom_eq_aux text (by omega)
  have step : legacyScanAux text (text.length + 1) s =
      ((legacyScanFrom text (e + 1)).1,
        .legacyParseFailed ((jsSubstring text (m + legacyMarker.length) e).take 100) ::
          (legacyScanFrom text (e + 1)).2) := by
    simp only [legacyScanAux, hidx, hbs]
    rw [if_neg hcond, hrec, hp]
  rw [legacyScanFrom, step]
  exact ⟨rfl, rfl⟩

/-- LEGACY scan, accepted candidate whose normalized payload parses: exactly
one directive is prepended (its `fullMatch` runs from the marker through the
`]`, its fields come from the parsed payload), and the scan resumes after the
`]` (src/index.js:957-972). -/
theorem legacyScanFrom_parse_ok {text : Str} {s m e : Nat} {data : Json}
    (hidx : indexOfFrom text legacyMarker s = some m)
    (hbs : braceScan text (m + legacyMarker.length) = some e)
    (hj : text.get? e = some ']')
    (hp : jsonParse (replaceAllChar (jsSubstring text (m + legacyMarker.length) e) '\'' '"') =
      some data) :
    (legacyScanFrom text s).1 =
      tagFromData (jsSubstring text m (e + 1)) m data false none ::
        (legacyScanFrom text (e + 1)).1 ∧
    (legacyScanFrom text s).2 = .foundLegacy :: (legacyScanFrom text (e + 1)).2 := by
  have hmb := indexOfFrom_some_bounds (show legacyMarker ≠ [] by decide) hidx
  have hlen : legacyMarker.length = 9 := rfl
  have heb := braceScan_bounds hbs
  have hcond : ¬(text.get? e ≠ some ']') := not_not_intro hj
  have hrec : legacyScanAux text text.length (e + 1) = legacyScanFrom text (e + 1) :=
    legacyScanFrom_eq_aux text (by omega)
  have step : legacyScanAux text (text.length + 1) s =
      (tagFromData (jsSubstring text m (e + 1)) m data false none ::
          (legacyScanFrom text (e + 1)).1,
        .foundLegacy :: (legacyScanFrom text (e + 1)).2) := by
    simp only [legacyScanAux, hidx, hbs]
    rw [if_neg hcond, hrec, hp]
  rw [legacyScanFrom, step]
  exact ⟨rfl, rfl⟩

/-- TAGGED scan, candidate whose instruction braces never close: silently
re-searched from just after the marker (src/index.js:818-821 — note: no
diagnostic). -/
theorem taggedScanFrom_skip_unbalanced {text : Str} {opts : ParseOpts} {fe : Str → Bool}
    {s mp imgStart jsonStart : Nat}
    (hidx : indexOfFrom text taggedMarker s = some mp)
    (hli : lastOccurUpTo text "<img".data mp = some imgStart)
    (h500 : mp - imgStart ≤ 500)
    (hjs : indexOfFrom text [lbrace] (mp + taggedMarker.length) = some jsonStart)
    (h10 : jsonStart ≤ mp + taggedMarker.length + 10)
    (hbs : braceScan text jsonStart = none) :
    taggedScanFrom text opts fe s = taggedScanFrom text opts fe (mp + 1) := by
  have hmb := indexOfFrom_some_bounds (show taggedMarker ≠ [] by decide) hidx
  have hlen : taggedMarker.length = 21 := rfl
  have step : taggedScanAux text opts fe (text.length + 1) s =
      taggedScanAux text opts fe text.length (mp + 1) := by
    simp only [taggedScanAux, hidx, hli, hjs, hbs]
    rw [if_neg (by omega : ¬ mp - imgStart > 500),
      if_neg (by omega : ¬ jsonStart > mp + taggedMarker.length + 10)]
  rw [taggedScanFrom, step]
  exact taggedScanFrom_eq_aux text opts fe (by omega)

/-- TAGGED scan, candidate that reaches generation but whose normalized
instruction payload fails `JSON.parse`: no directive, a WARN diagnostic, scan
resumes after the element's `>` (src/index.js:866-894). -/
theorem taggedScanFrom_parse_fail {text : Str} {opts : ParseOpts} {fe : Str → Bool}
    {s mp imgStart jsonStart jsonEnd gtPos : Nat}
    (hidx : indexOfFrom text taggedMarker s = some mp)
    (hli : lastOccurUpTo text "<img".data mp = some imgStart)
    (h500 : mp - imgStart ≤ 500)
    (hjs : indexOfFrom text [lbrace] (mp + taggedMarker.length) = some jsonStart)
    (h10 : jsonStart ≤ mp + taggedMarker.length + 10)
    (hbs : braceScan text jsonStart = some jsonEnd)
    (hgt : indexOfFrom text ['>'] jsonEnd = some gtPos)
    (herr : ¬(containsSub (srcAttrValue (jsSubstring text imgStart (gtPos + 1)))
        "error.svg".data && !opts.forceAll) = true)
    (hng : taggedNeedsGen opts fe (srcAttrValue (jsSubstring text imgStart (gtPos + 1))) = true)
    (hp : jsonParse (normalizeTaggedJson (jsSubstring text jsonStart jsonEnd)) = none) :
    (taggedScanFrom text opts fe s).1 = (taggedScanFrom text opts fe (gtPos + 1)).1 ∧
    (taggedScanFrom text opts fe s).2 =
      taggedExistLog opts fe (srcAttrValue (jsSubstring text imgStart (gtPos + 1))) ++
        .taggedParseFailed ((jsSubstring text jsonStart jsonEnd).take 100) ::
          (taggedScanFrom text opts fe (gtPos + 1)).2 := by
  have hmb := indexOfFrom_some_bounds (show taggedMarker ≠ [] by decide) hidx
  have hlen : taggedMarker.length = 21 := rfl
  have hjsb := indexOfFrom_some_bounds (show [lbrace] ≠ [] by decide) hjs
  have heb := braceScan_bounds hbs
  have hgtb := indexOfFrom_some_bounds (show ['>'] ≠ [] by decide) hgt
  have hrec : taggedScanAux text opts fe text.length (gtPos + 1) =
      taggedScanFrom text opts fe (gtPos + 1) :=
    taggedScanFrom_eq_aux text opts fe (by omega)
  have step : taggedScanAux text opts fe (text.length + 1) s =
      ((taggedScanFrom text opts fe (gtPos + 1)).1,
        taggedExistLog opts fe (srcAttrValue (jsSubstring text imgStart (gtPos + 1))) ++
          .taggedParseFailed ((jsSubstring text jsonStart jsonEnd).take 100) ::
            (taggedScanFrom text opts fe (gtPos + 1)).2) := by
    simp only [taggedScanAux, hidx, hli, hjs, hbs, hgt]
    rw [if_neg (by omega : ¬ mp - imgStart > 500),
      if_neg (by omega : ¬ jsonStart > mp + taggedMarker.length + 10),
      if_neg herr, if_pos hng, hrec, hp]
  rw [taggedScanFrom, step]
  exact ⟨rfl, rfl⟩

theorem substDollar_of_no_dollar (caps : List Str) (matched before after : Str) :
    ∀ rep : Str, '$' ∉ rep → substDollar caps matched before after rep = rep := by
  intro rep
  induction rep with
  | nil => intro _; rfl
  | cons c rest ih =>
    intro h
    have hc : ¬(c = '$') := fun hcc => h (by rw [hcc]; exact List.mem_cons_self _ _)
    have hrest : '$' ∉ rest := fun hm => h (List.mem_cons_of_mem _ hm)
    rw [substDollar.eq_def]
    simp only [hc, if_false, ite_false]
    rw [ih hrest]

theorem jsReplaceFirstLiteral_no_op {s pat rep : Str} (h : containsSub s pat = false) :
    jsReplaceFirstLiteral s pat rep = s := by
  unfold containsSub at h
  unfold jsReplaceFirstLiteral
  cases hi : indexOfFrom s pat 0 with
  | none => rfl
  | some k => rw [hi] at h; simp at h

theorem firstOccurAux_spec (pat : Str) :
    ∀ (l : Str) (k0 k : Nat), pat.isPrefixOf (l.drop k) = true →
      (∀ j, j < k → pat.isPrefixOf (l.drop j) = false) →
      firstOccurAux pat l k0 = some (k0 + k) := by
  intro l
  induction l with
  | nil =>
    intro k0 k hk hmin
    have hdrop : (([] : Str).drop k) = [] := by simp
    rw [hdrop] at hk
    have hp : pat = [] := by
      have := List.isPrefixOf_iff_prefix.mp hk
      simpa using this
    have hk0 : k = 0 := by
      by_contra hne
      have h0 := hmin 0 (by omega)
      rw [hp] at h0
      simp [List.isPrefixOf] at h0
    subst hp; subst hk0
    simp [firstOccurAux]
  | cons c cs ih =>
    intro k0 k hk hmin
    cases k with
    | zero =>
      rw [List.drop_zero] at hk
      simp [firstOccurAux, hk]
    | succ k' =>
      have h0 : pat.isPrefixOf (c :: cs) = false := by
        have := hmin 0 (by omega)
        rwa [List.drop_zero] at this
      simp only [firstOccurAux, h0, Bool.false_eq_true, if_false, ite_false]
      have hrec := ih (k0 + 1) k' (by simpa using hk)
        (fun j hj => by simpa using hmin (j + 1) (by omega))
      rw [hrec, show k0 + 1 + k' = k0 + (k' + 1) by omega]

theorem indexOfFrom_first {text pat : Str} {k : Nat}
    (hk : occursAt text pat k = true) (hmin : ∀ j, j < k → occursAt text pat j = false) :
    indexOfFrom text pat 0 = some k := by
  unfold occursAt at hk hmin
  unfold indexOfFrom
  rw [if_pos (Nat.zero_le _)]
  have := firstOccurAux_spec pat (text.drop 0) 0 k (by simpa using hk)
    (fun j hj => by simpa using hmin j hj)
  simpa using this

/-- The centred decomposition of a first-occurrence literal replacement: when
the pattern's first occurrence starts at `pre.length` and the replacement
contains no `$`, the patch substitutes exactly that occurrence and leaves
every other character unchanged. -/
theorem jsReplaceFirstLiteral_decomp {pre pat suf rep : Str}
    (hfirst : ∀ j, j < pre.length → occursAt (pre ++ pat ++ suf) pat j = false)
    (hnd : '$' ∉ rep) :
    jsReplaceFirstLiteral (pre ++ pat ++ suf) pat rep = pre ++ rep ++ suf := by
  have hocc : occursAt (pre ++ pat ++ suf) pat pre.length = true := by
    unfold occursAt
    rw [List.append_assoc, List.drop_left]
    exact List.isPrefixOf_iff_prefix.mpr (List.prefix_append pat suf)
  have hidx := indexOfFrom_first hocc hfirst
  unfold jsReplaceFirstLiteral
  simp only [hidx]
  rw [substDollar_of_no_dollar _ _ _ _ rep hnd]
  have htake : (pre ++ pat ++ suf).take pre.length = pre := by
    rw [List.append_assoc, List.take_left]
  have hdrop : (pre ++ pat ++ suf).drop (pre.length + pat.length) = suf := by
    rw [← List.length_append, List.drop_left]
  rw [htake, hdrop, List.append_assoc]

theorem collectReferenceImages_prev_le (settings : Settings) (fetchDU : Str → Option Str)
    (chat : List Msg) (prompt : Str) (cm : Nat) :
    (collectReferenceImages settings fetchDU chat prompt cm).previous.length ≤
      min (if settings.maxPreviousImages = 0 then 2 else settings.maxPreviousImages) 4 := by
  unfold collectReferenceImages
  by_cases hc : chat.isEmpty
  · simp [hc]
  · simp only [hc, Bool.false_eq_true, if_false, ite_false]
    by_cases hsp : settings.sendPreviousImages ∧ (generatedImagesIn chat cm).length > 0
    · simp only [hsp, if_pos, ite_true]
      refine le_trans (List.length_filterMap_le _ _) ?_
      rw [List.length_take]
      omega
    · simp [hsp]

theorem applyGenBatch_effects_countP (env : Env) (mid : Nat) (p : Effect → Bool)
    (hp : ∀ m i, p (.generate m i) = false) :
    ∀ (tags : List Tag) (i : Nat) (s : SysState),
      (applyGenBatch env mid tags i s).effects.countP p = s.effects.countP p := by
  intro tags
  induction tags with
  | nil => intro i s; rfl
  | cons t ts ih =>
    intro i s
    simp only [applyGenBatch]
    rw [ih]
    simp [List.countP_append, hp]

theorem applyGenBatch_clears (env : Env) (mid m : Nat) :
    ∀ (tags : List Tag) (i : Nat) (s : SysState),
      countClears m (applyGenBatch env mid tags i s).effects = countClears m s.effects := by
  intro tags
  unfold countClears
  exact applyGenBatch_effects_countP env mid _ (fun _ _ => rfl) tags

theorem applyGenBatch_persists (env : Env) (mid m : Nat) :
    ∀ (tags : List Tag) (i : Nat) (s : SysState),
      countPersists m (applyGenBatch env mid tags i s).effects = countPersists m s.effects := by
  intro tags
  unfold countPersists
  exact applyGenBatch_effects_countP env mid _ (fun _ _ => rfl) tags

/-- Are all (live) tasks invocations of `processMessageTags`? -/
def allPmt (tasks : List (Option Task)) : Bool :=
  tasks.all (fun ot => (ot.map Task.isPmt).getD true)

theorem stepSys_pmt_preserves (env : Env) (s : SysState) (t : Task) (ht : t.isPmt = true)
    (hinv : ∀ m, countClears m s.effects ≤ countPersists m s.effects) :
    (∀ m, countClears m (stepSys env s t).1.effects ≤
      countPersists m (stepSys env s t).1.effects) ∧
    (((stepSys env s t).2.map Task.isPmt).getD true = true) := by
  cases t with
  | pmtStart mid =>
    constructor
    · intro m
      by_cases he : env.enabled = false
      · simpa [stepSys, he] using hinv m
      · by_cases hp : mid ∈ s.processing
        · simpa [stepSys, he, hp] using hinv m
        · cases hg : s.chat[mid]? with
          | none => simpa [stepSys, he, hp, hg] using hinv m
          | some msg =>
            by_cases hu : msg.is_user
            · simpa [stepSys, he, hp, hg, hu] using hinv m
            · simpa [stepSys, he, hp, hg, hu] using hinv m
    · by_cases he : env.enabled = false
      · simp [stepSys, he]
      · by_cases hp : mid ∈ s.processing
        · simp [stepSys, he, hp]
        · cases hg : s.chat[mid]? with
          | none => simp [stepSys, he, hp, hg]
          | some msg =>
            by_cases hu : msg.is_user
            · simp [stepSys, he, hp, hg, hu]
            · simp [stepSys, he, hp, hg, hu, Task.isPmt]
  | pmtParsed mid tags =>
    constructor
    · intro m
      by_cases hT : tags.isEmpty
      · simpa [stepSys, hT] using hinv m
      · simp only [stepSys, hT, Bool.false_eq_true, if_false, ite_false]
        simpa [countClears, countPersists, List.countP_append] using hinv m
    · by_cases hT : tags.isEmpty
      · simp [stepSys, hT]
      · simp [stepSys, hT, Task.isPmt]
  | pmtGen mid tags =>
    constructor
    · intro m
      simp only [stepSys]
      rw [applyGenBatch_clears, applyGenBatch_persists]
      exact hinv m
    · simp [stepSys, Task.isPmt]
  | pmtSave mid =>
    constructor
    · intro m
      have hbase := hinv m
      simp only [countClears, countPersists] at hbase
      simp only [stepSys, countClears, countPersists, List.countP_append, List.countP_cons,
        List.countP_nil]
      by_cases hm : mid = m <;> simp [hm] <;> omega
    · simp [stepSys]
  | regenStart mid => simp [Task.isPmt] at ht
  | regenParsed mid tags => simp [Task.isPmt] at ht
  | regenGen mid tags => simp [Task.isPmt] at ht
  | regenSave mid => simp [Task.isPmt] at ht

theorem runSys_pmt_clear_le (env : Env) :
    ∀ (sched : List Nat) (s : SysState) (tasks : List (Option Task)),
      allPmt tasks = true →
      (∀ m, countClears m s.effects ≤ countPersists m s.effects) →
      ∀ m, countClears m (runSys env s tasks sched).effects ≤
        countPersists m (runSys env s tasks sched).effects := by
  intro sched
  induction sched with
  | nil => intro s tasks _ hinv m; exact hinv m
  | cons pick rest ih =>
    intro s tasks htasks hinv m
    simp only [runSys]
    cases hg : tasks[pick]? with
    | none => exact ih s tasks htasks hinv m
    | some ot =>
      cases ot with
      | none => exact ih s tasks htasks hinv m
      | some t =>
        have hg' : tasks.get? pick = some (some t) := by
          rw [List.get?_eq_getElem?]; exact hg
        have hmem : some t ∈ tasks := List.get?_mem hg'
        have ht : t.isPmt = true := by
          have := (List.all_eq_true.mp htasks) _ hmem
          simpa using this
        have hstep := stepSys_pmt_preserves env s t ht hinv
        apply ih
        · unfold allPmt
          rw [List.all_eq_true]
          intro ot' hmem'
          rcases List.mem_or_eq_of_mem_set hmem' with hold | hnew
          · have htasks' : tasks.all (fun ot => (ot.map Task.isPmt).getD true) = true := htasks
            exact (List.all_eq_true.mp htasks') _ hold
          · subst hnew
            exact hstep.2
        · exact hstep.1

theorem stateAt_eq (text : Str) (s i : Nat) (h : s ≤ i) :
    stateAt text s i = foldSt scanInit ((text.drop s).take (i - s)) := by
  unfold stateAt jsSubstring
  rw [Nat.max_eq_right h, Nat.min_eq_left h, List.drop_take]

/-! ## The claims -/

/-- C2: a generation call whose every attempt fails with a retryable error
message (containing one of 429/502/503/504/timeout/network), run with base
delay 1000ms and maxRetries 2, makes exactly 3 backend attempts with sleeps
of 1000ms then 2000ms between them and propagates the final error; a
non-retryable failure propagates immediately after the single attempt. -/
theorem claim2_retry_backoff :
    (∀ (call : Nat → Except Str Str) (e0 e1 e2 : Str),
      call 0 = .error e0 → call 1 = .error e1 → call 2 = .error e2 →
      isRetryableMsg e0 = true → isRetryableMsg e1 = true → isRetryableMsg e2 = true →
      generateRetryLoop call 2 1000 =
        (.error e2,
          [.statusUpdate 0, .attemptCall 0, .statusRetry 1000, .sleep 1000,
           .statusUpdate 1, .attemptCall 1, .statusRetry 2000, .sleep 2000,
           .statusUpdate 2, .attemptCall 2])) ∧
    (∀ (maxRetries baseDelay : Nat) (call : Nat → Except Str Str) (e : Str),
      call 0 = .error e → isRetryableMsg e = false →
      generateRetryLoop call maxRetries baseDelay =
        (.error e, [.statusUpdate 0, .attemptCall 0])) := by
  constructor
  · intro call e0 e1 e2 h0 h1 h2 r0 r1 r2
    simp [generateRetryLoop, retryGo, h0, h1, h2, r0, r1, r2]
  · intro maxRetries baseDelay call e h0 hr
    simp [generateRetryLoop, retryGo, h0, hr]

/-- Witness for C2: a perpetually-429 call and a non-retryable call, both
evaluated concretely. -/
theorem claim2_retry_backoff_witness :
    generateRetryLoop (fun _ => .error "API Error (429): limited".data) 2 1000 =
      (.error "API Error (429): limited".data,
        [.statusUpdate 0, .attemptCall 0, .statusRetry 1000, .sleep 1000,
         .statusUpdate 1, .attemptCall 1, .statusRetry 2000, .sleep 2000,
         .statusUpdate 2, .attemptCall 2]) ∧
    generateRetryLoop (fun _ => .error "No image data in response".data) 2 1000 =
      (.error "No image data in response".data, [.statusUpdate 0, .attemptCall 0]) :=
  ⟨claim2_retry_backoff.1 _ _ _ _ rfl rfl rfl (by decide) (by decide) (by decide),
   claim2_retry_backoff.2 2 1000 _ _ rfl (by decide)⟩

/-- C3: the brace scan used by both directive formats is string-literal
aware.  A position whose scan state is inside a double-quoted string never
closes the payload (even if it holds `}`); when the scan returns `some e`,
position `e - 1` holds a `}` outside any string whose decrement returns the
brace depth to zero, and it is the first such position. -/
theorem claim3_brace_scan_string_aware :
    (∀ (text : Str) (s j : Nat), s ≤ j →
      (stateAt text s j).inString = true → braceScan text s ≠ some (j + 1)) ∧
    (∀ (text : Str) (s e : Nat), braceScan text s = some e →
      s < e ∧ text.get? (e - 1) = some rbrace ∧
      (stateAt text s (e - 1)).inString = false ∧
      (stateAt text s (e - 1)).braceCount = 1 ∧
      ∀ j c, s ≤ j → j < e - 1 → text.get? j = some c →
        scanCloses (stateAt text s j) c = false) := by
  have part2 : ∀ (text : Str) (s e : Nat), braceScan text s = some e →
      s < e ∧ text.get? (e - 1) = some rbrace ∧
      (stateAt text s (e - 1)).inString = false ∧
      (stateAt text s (e - 1)).braceCount = 1 ∧
      ∀ j c, s ≤ j → j < e - 1 → text.get? j = some c →
        scanCloses (stateAt text s j) c = false := by
    intro text s e h
    obtain ⟨k, c, hget, he, hclose, hmin⟩ := braceScanAux_some_spec _ _ _ _ h
    have hget' : text.get? (s + k) = some c := by
      rw [← List.get?_drop]; exact hget
    have hcl : (foldSt scanInit ((text.drop s).take k)).escapeNext = false ∧
        (¬c = '\\' ∨ (foldSt scanInit ((text.drop s).take k)).inString = false) ∧ ¬c = '"' ∧
        (foldSt scanInit ((text.drop s).take k)).inString = false ∧ c = rbrace ∧
        (foldSt scanInit ((text.drop s).take k)).braceCount - 1 = 0 := by
      simpa [scanCloses] using hclose
    obtain ⟨hesc, hbsl, hq, hins, hcrb, hbc⟩ := hcl
    have he1 : e - 1 = s + k := by omega
    have hstate : stateAt text s (e - 1) = foldSt scanInit ((text.drop s).take k) := by
      rw [stateAt_eq text s (e - 1) (by omega)]
      rw [show e - 1 - s = k by omega]
    refine ⟨by omega, ?_, ?_, ?_, ?_⟩
    · rw [he1, hget', hcrb]
    · rw [hstate]; exact hins
    · rw [hstate]; omega
    · intro j c' hsj hje hgj
      have hj' : j = s + (j - s) := by omega
      have hgd : (text.drop s).get? (j - s) = some c' := by
        rw [List.get?_drop]
        rw [hj'] at hgj
        exact hgj
      have hmin' := hmin (j - s) c' (by omega) hgd
      have hst : stateAt text s j = foldSt scanInit ((text.drop s).take (j - s)) :=
        stateAt_eq text s j (by omega)
      rw [hst]
      exact hmin'
  refine ⟨?_, part2⟩
  intro text s j hsj hins h
  obtain ⟨_, _, hins', _, _⟩ := part2 text s (j + 1) h
  rw [show j + 1 - 1 = j by omega] at hins'
  rw [hins] at hins'
  exact Bool.true_eq_false.mp hins'

/-- The spec's own example for C3: `{"p":"a } in quotes"}`. -/
def c3text : Str := "\x7b\"p\":\"a \x7d in quotes\"\x7d".data

/-- Witness for C3: in the example payload the `}` at index 8 sits inside the
string value, the scan state there is in-string, and the scan does not close
at it (the payload in fact closes at index 20). -/
theorem claim3_witness :
    c3text.get? 8 = some rbrace ∧ (stateAt c3text 0 8).inString = true ∧
    braceScan c3text 0 ≠ some 9 :=
  ⟨by decide, by decide,
   claim3_brace_scan_string_aware.1 c3text 0 8 (by decide) (by decide)⟩

/-- C8: a LEGACY candidate yields a directive only when the character after
its matching closing brace is `]` (otherwise it is rejected and scanning
continues at the closing brace); an accepted candidate's payload is the text
from just after the marker through the closing brace, single-quotes
normalized to double-quotes before `JSON.parse`, and its `fullMatch` is the
marker through the `]` inclusive. -/
theorem claim8_legacy_acceptance (text : Str) (s m e : Nat) (data : Json)
    (hidx : indexOfFrom text legacyMarker s = some m)
    (hbs : braceScan text (m + legacyMarker.length) = some e) :
    (text.get? e ≠ some ']' → legacyScanFrom text s = legacyScanFrom text e) ∧
    (text.get? e = some ']' →
      jsonParse (replaceAllChar (jsSubstring text (m + legacyMarker.length) e) '\'' '"') =
        some data →
      (legacyScanFrom text s).1 =
        tagFromData (jsSubstring text m (e + 1)) m data false none ::
          (legacyScanFrom text (e + 1)).1) := by
  constructor
  · intro hj
    exact legacyScanFrom_skip_nobracket hidx hbs hj
  · intro hj hp
    exact (legacyScanFrom_parse_ok hidx hbs hj hp).1

/-- Witness text for C8: a candidate whose brace is not followed by `]`
(rejected) and an accepted candidate in the same message. -/
def c8text : Str := "x [IMG:GEN:\x7b\"a\":1\x7d yes [IMG:GEN:\x7b\"prompt\":\"ok\"\x7d]".data

/-- The parsed payload of the accepted C8 candidate. -/
def c8data : Json := .obj [("prompt".data, .str "ok".data)]

/-- Witness for C8: the first candidate (closing brace at 17, followed by a
space) yields no directive and scanning continues; the second is accepted
with the stated payload and `fullMatch`. -/
theorem claim8_witness :
    legacyScanFrom c8text 0 = legacyScanFrom c8text 18 ∧
    (legacyScanFrom c8text 18).1 =
      tagFromData (jsSubstring c8text 23 48) 23 c8data false none ::
        (legacyScanFrom c8text 48).1 :=
  ⟨(claim8_legacy_acceptance c8text 0 2 18 c8data (by decide) (by decide)).1 (by decide),
   (claim8_legacy_acceptance c8text 18 23 47 c8data (by decide) (by decide)).2 (by decide) rfl⟩

/-- The C7 scenario input message. -/
def c7text : Str := "The image [IMG:GEN:\x7b\"prompt\":\"a cat\",\"style\":\"anime\"\x7d] appears.".data

/-- The bracketed marker inside the C7 scenario message. -/
def c7full : Str := "[IMG:GEN:\x7b\"prompt\":\"a cat\",\"style\":\"anime\"\x7d]".data

/-- The directive the scanner extracts from the C7 scenario message. -/
def c7tag : Tag :=
  { fullMatch := c7full, index := 10, style := .str "anime".data, prompt := .str "a cat".data,
    aspectRatio := .null, preset := .null, imageSize := .null, quality := .null,
    isNewFormat := false, existingSrc := none }

/-- A generic-REST (OpenAI-compatible) configuration. -/
def c7settings : Settings :=
  { enabled := true, apiType := "openai".data, endpoint := "https://api.example.com".data,
    apiKey := "k".data, model := "dall-e-3".data, size := "1024x1024".data,
    quality := "standard".data, maxRetries := 0, retryDelay := 1000,
    aspectRatio := "1:1".data, imageSize := "1K".data, sendPreviousImages := true,
    maxPreviousImages := 2, sendStyleReference := true, sendNpcReferences := true,
    npcReferenceImages := [] }

/-- C7: on the scenario input, the scanner extracts exactly the bracketed
directive with prompt `a cat` and style `anime`; the configured generic-REST
backend is selected and called with prompt `[Style: anime] a cat`; and on
success the bracketed marker is replaced by `[IMG:✓:<path>]` with all
surrounding prose unchanged. -/
theorem claim7_scenario :
    (parseImageTags c7text ⟨true, false⟩ (fun _ => false)).1 = [c7tag] ∧
    selectBackend c7settings = .openai ∧
    (openAIRequestBody c7settings c7tag.prompt c7tag.style []
      { aspectRatio := c7tag.aspectRatio, imageSize := c7tag.imageSize,
        quality := c7tag.quality, preset := c7tag.preset, messageId := 0 }).prompt =
      "[Style: anime] a cat".data ∧
    (∀ p : Str, '$' ∉ p →
      patchSuccess c7text c7tag p =
        "The image ".data ++ "[IMG:✓:".data ++ p ++ "]".data ++ " appears.".data) := by
  refine ⟨rfl, rfl, rfl, ?_⟩
  intro p hp
  have hnd : '$' ∉ ("[IMG:✓:".data ++ p ++ "]".data : Str) := by
    intro hm
    rcases List.mem_append.mp hm with hm1 | hm2
    · rcases List.mem_append.mp hm1 with hm3 | hm4
      · exact absurd hm3 (by decide)
      · exact hp hm4
    · exact absurd hm2 (by decide)
  have hfirst : ∀ j, j < ("The image ".data : Str).length →
      occursAt ("The image ".data ++ c7full ++ " appears.".data) c7full j = false := by decide
  have hdec := @jsReplaceFirstLiteral_decomp "The image ".data c7full " appears.".data
    ("[IMG:✓:".data ++ p ++ "]".data) hfirst hnd
  have hsplit : c7text = "The image ".data ++ c7full ++ " appears.".data := rfl
  show jsReplaceFirstLiteral c7text c7tag.fullMatch ("[IMG:✓:".data ++ p ++ "]".data) = _
  rw [show c7tag.fullMatch = c7full from rfl, hsplit, hdec]
  simp [List.append_assoc]

/-- Witness for C7: the patch evaluated at a concrete stored path. -/
theorem claim7_scenario_witness :
    patchSuccess c7text c7tag "/user/images/ch/iig_1.png".data =
      "The image ".data ++ "[IMG:✓:".data ++ "/user/images/ch/iig_1.png".data ++ "]".data ++
        " appears.".data :=
  claim7_scenario.2.2.2 "/user/images/ch/iig_1.png".data (by decide)

/-- Does a JSON value pass the Gemini aspect-ratio allow-list (it must be a
string member of `VALID_ASPECT_RATIOS`)? -/
def geminiARValid (v : Json) : Bool :=
  match v with
  | .str s => decide (s ∈ validAspectRatios)
  | _ => false

/-- Does a JSON value pass the Gemini resolution-tier allow-list? -/
def geminiSZValid (v : Json) : Bool :=
  match v with
  | .str s => decide (s ∈ validImageSizes)
  | _ => false

/-- C9: the Gemini adapter's content-part list is at most the first four
reference images (inline parts) followed by the single text part, whose
prompt carries the reference-usage instruction block exactly when references
are present; aspect-ratio and resolution-tier options are validated against
the fixed allow-lists, falling back to the stored configuration value and
then to the universal defaults `1:1` / `1K`. -/
theorem claim9_gemini_adapter :
    (∀ (refs : List Str) (prompt style : Json),
      geminiParts refs prompt style =
        (refs.take 4).map (fun b64 => GPart.inlineData "image/png".data b64) ++
          [GPart.text (geminiFullPrompt refs prompt style)] ∧
      (geminiParts refs prompt style).length = min refs.length 4 + 1 ∧
      (refs = [] → geminiFullPrompt refs prompt style = styledPrompt prompt style) ∧
      (refs ≠ [] → geminiFullPrompt refs prompt style =
        geminiRefInstruction refs.length ++ styledPrompt prompt style)) ∧
    (∀ (sa cfg : Str), sa ∈ validAspectRatios → geminiAspectRatio (.str sa) cfg = sa) ∧
    (∀ (v : Json) (cfg : Str), geminiARValid v = false → cfg ∈ validAspectRatios →
      geminiAspectRatio v cfg = cfg) ∧
    (∀ (v : Json) (cfg : Str), geminiARValid v = false → cfg ∉ validAspectRatios →
      geminiAspectRatio v cfg = "1:1".data) ∧
    (∀ (sz cfg : Str), sz ∈ validImageSizes → geminiImageSize (.str sz) cfg = sz) ∧
    (∀ (v : Json) (cfg : Str), geminiSZValid v = false → cfg ∈ validImageSizes →
      geminiImageSize v cfg = cfg) ∧
    (∀ (v : Json) (cfg : Str), geminiSZValid v = false → cfg ∉ validImageSizes →
      geminiImageSize v cfg = "1K".data) := by
  have hARne : ∀ sa : Str, sa ∈ validAspectRatios → sa ≠ [] := by
    intro sa hmem
    have hall : validAspectRatios.all (fun x => decide (x ≠ [])) = true := by decide
    exact of_decide_eq_true ((List.all_eq_true.mp hall) sa hmem)
  have hSZne : ∀ sz : Str, sz ∈ validImageSizes → sz ≠ [] := by
    intro sz hmem
    have hall : validImageSizes.all (fun x => decide (x ≠ [])) = true := by decide
    exact of_decide_eq_true ((List.all_eq_true.mp hall) sz hmem)
  refine ⟨?_, ?_, ?_, ?_, ?_, ?_, ?_⟩
  · intro refs prompt style
    refine ⟨rfl, ?_, ?_, ?_⟩
    · simp [geminiParts]
      omega
    · intro h
      simp [geminiFullPrompt, h]
    · intro h
      have : refs.length > 0 := List.length_pos.mpr h
      simp [geminiFullPrompt, this]
  · intro sa cfg hmem
    have hne := hARne sa hmem
    simp [geminiAspectRatio, jsTruthy, hne, hmem]
  · intro v cfg hv hcfg
    have hcfgne := hARne cfg hcfg
    by_cases ht : jsTruthy v = true
    · cases v with
      | str s =>
        have hs : ¬(s ∈ validAspectRatios) := by
          simpa [geminiARValid] using hv
        simp [geminiAspectRatio, ht, hs, hcfg]
      | null => simp [jsTruthy] at ht
      | bool b => cases b <;> simp_all [geminiAspectRatio, jsTruthy, hcfg]
      | num lex => simp [geminiAspectRatio, ht, hcfg]
      | arr es => simp [geminiAspectRatio, ht, hcfg]
      | obj ms => simp [geminiAspectRatio, ht, hcfg]
    · have ht' : jsTruthy v = false := by simpa using ht
      simp [geminiAspectRatio, ht', hcfgne, hcfg]
  · intro v cfg hv hcfg
    by_cases ht : jsTruthy v = true
    · cases v with
      | str s =>
        have hs : ¬(s ∈ validAspectRatios) := by
          simpa [geminiARValid] using hv
        simp [geminiAspectRatio, ht, hs, hcfg]
      | null => simp [jsTruthy] at ht
      | bool b => cases b <;> simp_all [geminiAspectRatio, jsTruthy, hcfg]
      | num lex => simp [geminiAspectRatio, ht, hcfg]
      | arr es => simp [geminiAspectRatio, ht, hcfg]
      | obj ms => simp [geminiAspectRatio, ht, hcfg]
    · have ht' : jsTruthy v = false := by simpa using ht
      by_cases hce : cfg.isEmpty
      · simp only [geminiAspectRatio, ht', hce, Bool.false_eq_true, if_false, ite_false,
          ite_true, if_true]
        simp
        intro h
        exact absurd (show ("1:1".data : Str) ∈ validAspectRatios by decide) h
      · simp [geminiAspectRatio, ht', hce, hcfg]
  · intro sz cfg hmem
    have hne := hSZne sz hmem
    simp [geminiImageSize, jsTruthy, hne, hmem]
  · intro v cfg hv hcfg
    have hcfgne := hSZne cfg hcfg
    by_cases ht : jsTruthy v = true
    · cases v with
      | str s =>
        have hs : ¬(s ∈ validImageSizes) := by
          simpa [geminiSZValid] using hv
        simp [geminiImageSize, ht, hs, hcfg]
      | null => simp [jsTruthy] at ht
      | bool b => cases b <;> simp_all [geminiImageSize, jsTruthy, hcfg]
      | num lex => simp [geminiImageSize, ht, hcfg]
      | arr es => simp [geminiImageSize, ht, hcfg]
      | obj ms => simp [geminiImageSize, ht, hcfg]
    · have ht' : jsTruthy v = false := by simpa using ht
      simp [geminiImageSize, ht', hcfgne, hcfg]
  · intro v cfg hv hcfg
    by_cases ht : jsTruthy v = true
    · cases v with
      | str s =>
        have hs : ¬(s ∈ validImageSizes) := by
          simpa [geminiSZValid] using hv
        simp [geminiImageSize, ht, hs, hcfg]
      | null => simp [jsTruthy] at ht
      | bool b => cases b <;> simp_all [geminiImageSize, jsTruthy, hcfg]
      | num lex => simp [geminiImageSize, ht, hcfg]
      | arr es => simp [geminiImageSize, ht, hcfg]
      | obj ms => simp [geminiImageSize, ht, hcfg]
    · have ht' : jsTruthy v = false := by simpa using ht
      by_cases hce : cfg.isEmpty
      · simp only [geminiImageSize, ht', hce, Bool.false_eq_true, if_false, ite_false,
          ite_true, if_true]
        simp
        intro h
        exact absurd (show ("1K".data : Str) ∈ validImageSizes by decide) h
      · simp [geminiImageSize, ht', hce, hcfg]

/-- Witness for C9: concrete resolutions — a valid option wins; an invalid
option falls back to a valid stored value; both invalid falls back to the
universal defaults; and a two-reference part list has the instruction block. -/
theorem claim9_gemini_adapter_witness :
    geminiAspectRatio (.str "16:9".data) "1:1".data = "16:9".data ∧
    geminiAspectRatio (.str "7:7".data) "4:3".data = "4:3".data ∧
    geminiAspectRatio .null "weird".data = "1:1".data ∧
    geminiImageSize (.str "2K".data) "1K".data = "2K".data ∧
    geminiImageSize .null "8K".data = "1K".data ∧
    (geminiParts ["A".data, "B".data] (.str "cat".data) (.str [])).length = 3 ∧
    (["A".data, "B".data] ≠ ([] : List Str) →
      geminiFullPrompt ["A".data, "B".data] (.str "cat".data) (.str []) =
        geminiRefInstruction 2 ++ styledPrompt (.str "cat".data) (.str [])) :=
  ⟨claim9_gemini_adapter.2.1 "16:9".data "1:1".data (by decide),
   claim9_gemini_adapter.2.2.1 (.str "7:7".data) "4:3".data (by decide) (by decide),
   claim9_gemini_adapter.2.2.2.1 .null "weird".data (by decide) (by decide),
   claim9_gemini_adapter.2.2.2.2.1 "2K".data "1K".data (by decide),
   claim9_gemini_adapter.2.2.2.2.2.2 .null "8K".data (by decide) (by decide),
   by
     have := (claim9_gemini_adapter.1 ["A".data, "B".data] (.str "cat".data) (.str [])).2.1
     simpa using this,
   (claim9_gemini_adapter.1 ["A".data, "B".data] (.str "cat".data) (.str [])).2.2.2⟩

/-- Counterexample input for C10: a LEGACY candidate whose payload is
well-formed double-quoted JSON with apostrophes inside the string value of
key `a`, crafted so that rewriting every apostrophe to a double-quote yields
valid JSON again (`{"a":"x","b":"y"}`). -/
def c10text : Str := "[IMG:GEN:\x7b\"a\":\"x','b':'y\"\x7d]".data

/-- The payload of the C10 counterexample candidate. -/
def c10payload : Str := "\x7b\"a\":\"x','b':'y\"\x7d".data

/-- C10 counterexample: the claim says every such candidate is dropped, but
this one yields a directive — the apostrophe-rewritten payload parses. -/
theorem claim10_counterexample :
    jsonParse c10payload = some (.obj [("a".data, .str "x','b':'y".data)]) ∧
    jsonParse (replaceAllChar c10payload '\'' '"') =
      some (.obj [("a".data, .str "x".data), ("b".data, .str "y".data)]) ∧
    (parseImageTags c10text ⟨false, false⟩ (fun _ => false)).1.length = 1 :=
  ⟨rfl, rfl, rfl⟩

/-- The typical C10 input: payload `{"prompt":"it's raining"}`. -/
def c10btext : Str := "[IMG:GEN:\x7b\"prompt\":\"it's raining\"\x7d]".data

/-- The payload of the typical C10 candidate. -/
def c10bpayload : Str := "\x7b\"prompt\":\"it's raining\"\x7d".data

/-- C10 amended: normalization rewrites every single-quote in the payload
(including inside double-quoted string values) to a double-quote before
`JSON.parse`; the candidate is dropped exactly when the rewritten payload
fails to parse.  The typical payload `{"prompt":"it's raining"}` is valid
JSON, its rewrite is unparseable, so it yields no directive and one parse
diagnostic; a payload whose rewrite happens to parse still yields a
directive. -/
theorem claim10_normalization_amended :
    jsonParse c10bpayload = some (.obj [("prompt".data, .str "it's raining".data)]) ∧
    jsonParse (replaceAllChar c10bpayload '\'' '"') = none ∧
    (parseImageTags c10btext ⟨false, false⟩ (fun _ => false)).1 = [] ∧
    (parseImageTags c10btext ⟨false, false⟩ (fun _ => false)).2 =
      [.legacyParseFailed c10bpayload] ∧
    (parseImageTags c10text ⟨false, false⟩ (fun _ => false)).1.length = 1 :=
  ⟨rfl, rfl, rfl, rfl, rfl⟩

/-- Counterexample input for C4: a LEGACY candidate whose braces never close
before end of text. -/
def c4text : Str := "see [IMG:GEN:\x7b\"prompt\":\"x\" oops".data

/-- C4 counterexample: the unbalanced-braces candidate yields zero
directives and scanning terminates normally, but NO diagnostic is logged —
the whole scan returns an empty log, refuting the claim's "a diagnostic is
logged" for this malformed candidate. -/
theorem claim4_counterexample :
    (parseImageTags c4text ⟨false, false⟩ (fun _ => false)).1 = [] ∧
    (parseImageTags c4text ⟨false, false⟩ (fun _ => false)).2 = [] :=
  ⟨rfl, rfl⟩

/-- C4 amended: `parseImageTags` is total and a malformed candidate
contributes zero directives while scanning continues past it (later
candidates are still found); a diagnostic is logged when the braces close
but `JSON.parse` fails (both formats); a candidate whose braces never close
is skipped silently, with no diagnostic, in both formats (the
`jsonEnd === -1` branches at src/index.js:818-821 and 942-945). -/
theorem claim4_malformed_skip_amended :
    (∀ (text : Str) (s m e : Nat),
      indexOfFrom text legacyMarker s = some m →
      braceScan text (m + legacyMarker.length) = some e →
      text.get? e = some ']' →
      jsonParse (replaceAllChar (jsSubstring text (m + legacyMarker.length) e) '\'' '"') =
        none →
      (legacyScanFrom text s).1 = (legacyScanFrom text (e + 1)).1 ∧
      (legacyScanFrom text s).2 =
        .legacyParseFailed ((jsSubstring text (m + legacyMarker.length) e).take 100) ::
          (legacyScanFrom text (e + 1)).2) ∧
    (∀ (text : Str) (s m : Nat),
      indexOfFrom text legacyMarker s = some m →
      braceScan text (m + legacyMarker.length) = none →
      legacyScanFrom text s = legacyScanFrom text (m + legacyMarker.length)) ∧
    (∀ (text : Str) (opts : ParseOpts) (fe : Str → Bool)
        (s mp imgStart jsonStart jsonEnd gtPos : Nat),
      indexOfFrom text taggedMarker s = some mp →
      lastOccurUpTo text "<img".data mp = some imgStart →
      mp - imgStart ≤ 500 →
      indexOfFrom text [lbrace] (mp + taggedMarker.length) = some jsonStart →
      jsonStart ≤ mp + taggedMarker.length + 10 →
      braceScan text jsonStart = some jsonEnd →
      indexOfFrom text ['>'] jsonEnd = some gtPos →
      ¬(containsSub (srcAttrValue (jsSubstring text imgStart (gtPos + 1)))
          "error.svg".data && !opts.forceAll) = true →
      taggedNeedsGen opts fe (srcAttrValue (jsSubstring text imgStart (gtPos + 1))) = true →
      jsonParse (normalizeTaggedJson (jsSubstring text jsonStart jsonEnd)) = none →
      (taggedScanFrom text opts fe s).1 = (taggedScanFrom text opts fe (gtPos + 1)).1 ∧
      (taggedScanFrom text opts fe s).2 =
        taggedExistLog opts fe (srcAttrValue (jsSubstring text imgStart (gtPos + 1))) ++
          .taggedParseFailed ((jsSubstring text jsonStart jsonEnd).take 100) ::
            (taggedScanFrom text opts fe (gtPos + 1)).2) ∧
    (∀ (text : Str) (opts : ParseOpts) (fe : Str → Bool) (s mp imgStart jsonStart : Nat),
      indexOfFrom text taggedMarker s = some mp →
      lastOccurUpTo text "<img".data mp = some imgStart →
      mp - imgStart ≤ 500 →
      indexOfFrom text [lbrace] (mp + taggedMarker.length) = some jsonStart →
      jsonStart ≤ mp + taggedMarker.length + 10 →
      braceScan text jsonStart = none →
      taggedScanFrom text opts fe s = taggedScanFrom text opts fe (mp + 1)) := by
  refine ⟨?_, ?_, ?_, ?_⟩
  · intro text s m e h1 h2 h3 h4
    exact legacyScanFrom_parse_fail h1 h2 h3 h4
  · intro text s m h1 h2
    exact legacyScanFrom_skip_unbalanced h1 h2
  · intro text opts fe s mp imgStart jsonStart jsonEnd gtPos h1 h2 h3 h4 h5 h6 h7 h8 h9 h10
    exact taggedScanFrom_parse_fail h1 h2 h3 h4 h5 h6 h7 h8 h9 h10
  · intro text opts fe s mp imgStart jsonStart h1 h2 h3 h4 h5 h6
    exact taggedScanFrom_skip_unbalanced h1 h2 h3 h4 h5 h6

/-- Witness text for C4 amended: a TAGGED candidate with malformed
instruction JSON (`{"p" "q"}`) followed by a LEGACY candidate with malformed
payload (`{bad}`) in the same message; both are skipped with one diagnostic
each. -/
def c4ttext : Str :=
  "<img data-iig-instruction=\x7b\"p\" \"q\"\x7d src=\"\"> t [IMG:GEN:\x7bbad\x7d] u".data

/-- Witness text for C4 amended, TAGGED unbalanced braces: the instruction
payload opens a brace (and a string) that never close before end of text. -/
def c4tutext : Str := "<img data-iig-instruction=\x7b\"p\":\"x oops".data

/-- Witness for C4 amended: the four parts applied at concrete inputs
(including a TAGGED candidate whose braces never close, skipped silently
with the scan resuming just after the marker). -/
theorem claim4_malformed_skip_amended_witness :
    ((legacyScanFrom c4ttext 0).1 = (legacyScanFrom c4ttext 61).1 ∧
      (legacyScanFrom c4ttext 0).2 =
        .legacyParseFailed "\x7bbad\x7d".data :: (legacyScanFrom c4ttext 61).2) ∧
    legacyScanFrom c4text 0 = legacyScanFrom c4text 13 ∧
    ((taggedScanFrom c4ttext ⟨false, false⟩ (fun _ => false) 0).1 =
        (taggedScanFrom c4ttext ⟨false, false⟩ (fun _ => false) 43).1 ∧
      (taggedScanFrom c4ttext ⟨false, false⟩ (fun _ => false) 0).2 =
        .taggedParseFailed "\x7b\"p\" \"q\"\x7d".data ::
          (taggedScanFrom c4ttext ⟨false, false⟩ (fun _ => false) 43).2) ∧
    taggedScanFrom c4tutext ⟨false, false⟩ (fun _ => false) 0 =
      taggedScanFrom c4tutext ⟨false, false⟩ (fun _ => false) 6 :=
  ⟨claim4_malformed_skip_amended.1 c4ttext 0 46 60 (by decide) (by decide) (by decide) rfl,
   claim4_malformed_skip_amended.2.1 c4text 0 4 (by decide) (by decide),
   claim4_malformed_skip_amended.2.2.1 c4ttext ⟨false, false⟩ (fun _ => false)
     0 5 0 26 35 42 (by decide) (by decide) (by decide) (by decide) (by decide)
     (by decide) (by decide) (by decide) (by decide) rfl,
   claim4_malformed_skip_amended.2.2.2 c4tutext ⟨false, false⟩ (fun _ => false)
     0 5 0 26 (by decide) (by decide) (by decide) (by decide) (by decide) (by decide)⟩

/-- A chat history message holding one generated image (`iig_<i>`). -/
def c5msg (i : Nat) : Msg :=
  ⟨("x <img src=\"/user/images/c/iig_".data ++ natStr i ++ ".png\"> y".data), false⟩

/-- Six messages: five prior generated images (messages 0..4) plus the
message being generated for (message 5, whose own image must be excluded). -/
def c5chat : List Msg := [c5msg 0, c5msg 1, c5msg 2, c5msg 3, c5msg 4, c5msg 5]

/-- A fetch oracle that always succeeds, tagging the fetched path. -/
def c5fetch : Str → Option Str := fun p => some ("DU:".data ++ p)

/-- Style reference and previous images enabled, cap 2. -/
def c5settings : Settings :=
  { enabled := true, apiType := "gemini".data, endpoint := [], apiKey := [], model := [],
    size := [], quality := [], maxRetries := 0, retryDelay := 1000, aspectRatio := [],
    imageSize := [], sendPreviousImages := true, maxPreviousImages := 2,
    sendStyleReference := true, sendNpcReferences := false, npcReferenceImages := [] }

/-- Previous images enabled with configured cap 0 (style reference off). -/
def c5settingsZ : Settings :=
  { enabled := true, apiType := "gemini".data, endpoint := [], apiKey := [], model := [],
    size := [], quality := [], maxRetries := 0, retryDelay := 1000, aspectRatio := [],
    imageSize := [], sendPreviousImages := true, maxPreviousImages := 0,
    sendStyleReference := false, sendNpcReferences := false, npcReferenceImages := [] }

/-- C5 counterexample: with previous-images enabled and configured cap 0,
the code falls back to `maxPreviousImages || 2` and returns 2 previous
images, exceeding min(configured cap, 4) = 0 — refuting the claim's "never
exceeds min(configured cap, 4)". -/
theorem claim5_counterexample :
    (collectReferenceImages c5settingsZ (fun p => some p) (c5chat.take 4) [] 3).previous.length
        = 2 ∧
    ¬((collectReferenceImages c5settingsZ (fun p => some p) (c5chat.take 4) [] 3).previous.length
        ≤ min c5settingsZ.maxPreviousImages 4) :=
  ⟨rfl, by decide⟩

/-- C5 amended: in the 5-prior-images scenario with style reference enabled
and previous-images cap 2, the style reference is the oldest of the five and
the previous images are the two newest excluding it, newest first (the
current message's own image is excluded); in general the previous-images
count never exceeds min(cap, 4) where a configured cap of 0 falls back to
the default 2 (`maxPreviousImages || 2`). -/
theorem claim5_reference_ordering_amended :
    (collectReferenceImages c5settings c5fetch c5chat [] 5).style =
      some ("DU:".data ++ "/user/images/c/iig_0.png".data) ∧
    (collectReferenceImages c5settings c5fetch c5chat [] 5).previous =
      ["DU:".data ++ "/user/images/c/iig_4.png".data,
       "DU:".data ++ "/user/images/c/iig_3.png".data] ∧
    (collectReferenceImages c5settings c5fetch c5chat [] 5).npcs = [] ∧
    (∀ (settings : Settings) (fetchDU : Str → Option Str) (chat : List Msg)
        (prompt : Str) (cm : Nat),
      (collectReferenceImages settings fetchDU chat prompt cm).previous.length ≤
        min (if settings.maxPreviousImages = 0 then 2 else settings.maxPreviousImages) 4) :=
  ⟨rfl, rfl, rfl, collectReferenceImages_prev_le⟩

/-- A TAGGED directive whose instruction metadata itself contains a quoted
`src='x'` assignment (legal JSON — apostrophes are ordinary characters in a
JSON string). -/
def c6full : Str :=
  "<img data-iig-instruction=\x7b\"prompt\":\"src='x' y\"\x7d src=\"/a.png\">".data

/-- The instruction attribute value of `c6full`. -/
def c6instr : Str := "\x7b\"prompt\":\"src='x' y\"\x7d".data

/-- A message containing the C6 directive with surrounding prose. -/
def c6mes : Str := "A ".data ++ c6full ++ " B".data

/-- The directive the scanner extracts from `c6mes` under force-all (the
regeneration path). -/
def c6tagX : Tag :=
  { fullMatch := c6full, index := 2, style := .str [], prompt := .str "src='x' y".data,
    aspectRatio := .null, preset := .null, imageSize := .null, quality := .null,
    isNewFormat := true, existingSrc := none }

/-- A stored image path. -/
def c6path : Str := "/user/images/c/iig_9.png".data

/-- C6 counterexample: for this scanner-produced TAGGED directive, the
success patch rewrites the FIRST quoted `src=` assignment of `fullMatch`,
which sits inside the instruction metadata: the patched message no longer
contains the original instruction attribute (metadata NOT preserved
verbatim) while the element's real `src="/a.png"` survives unchanged —
refuting "only the src attribute value inside fullMatch is replaced (all
other attributes including the instruction metadata preserved verbatim)". -/
theorem claim6_counterexample :
    (parseImageTags c6mes ⟨false, true⟩ (fun _ => false)).1 = [c6tagX] ∧
    containsSub c6mes c6full = true ∧
    containsSub c6mes c6instr = true ∧
    patchSuccess c6mes c6tagX c6path =
      ("A <img data-iig-instruction=\x7b\"prompt\":\"src=\"".data ++ c6path ++
        "\" y\"\x7d src=\"/a.png\"> B".data) ∧
    containsSub (patchSuccess c6mes c6tagX c6path) c6instr = false ∧
    containsSub (patchSuccess c6mes c6tagX c6path) "src=\"/a.png\"".data = true :=
  ⟨rfl, rfl, rfl, rfl, rfl, rfl⟩

/-- C6 amended: patching substitutes exactly the first occurrence of the
literal `fullMatch`, leaving every other character unchanged, and is a no-op
when `fullMatch` no longer occurs; for TAGGED directives the replacement
inside `fullMatch` targets the FIRST substring matching the quoted
`src\s*=\s*(['"])[^'"]*\1` pattern — this is the src attribute only when no
earlier quoted `src=` text occurs (e.g. inside the instruction metadata),
and the matched span (including its quote style and spacing) is rewritten to
`src="<path>"`. -/
theorem claim6_patch_amended :
    (∀ (mes : Str) (tag : Tag) (path : Str), containsSub mes tag.fullMatch = false →
      patchSuccess mes tag path = mes) ∧
    (∀ (pre pat suf rep : Str),
      (∀ j, j < pre.length → occursAt (pre ++ pat ++ suf) pat j = false) → '$' ∉ rep →
      jsReplaceFirstLiteral (pre ++ pat ++ suf) pat rep = pre ++ rep ++ suf) ∧
    (∀ (fm rep : Str) (st len : Nat) (q : Char),
      srcQuoteFirst fm = some (st, len, q) → '$' ∉ rep →
      jsReplaceSrcQuote fm rep = fm.take st ++ rep ++ fm.drop (st + len)) := by
  refine ⟨?_, ?_, ?_⟩
  · intro mes tag path h
    unfold patchSuccess
    split
    · exact jsReplaceFirstLiteral_no_op h
    · exact jsReplaceFirstLiteral_no_op h
  · intro pre pat suf rep h1 h2
    exact jsReplaceFirstLiteral_decomp h1 h2
  · intro fm rep st len q h hnd
    unfold jsReplaceSrcQuote
    simp only [h]
    rw [substDollar_of_no_dollar _ _ _ _ rep hnd]

/-- Witness for C6 amended: the no-op on a message not containing the
directive, the single-occurrence decomposition on a concrete message, and
the first-src-match rewrite on the concrete `fullMatch` (the match starts at
index 37, inside the instruction metadata). -/
theorem claim6_patch_amended_witness :
    patchSuccess "no directive here".data c6tagX c6path = "no directive here".data ∧
    jsReplaceFirstLiteral ("A ".data ++ "[IMG:GEN:x]".data ++ " B".data) "[IMG:GEN:x]".data
        "done".data = "A ".data ++ "done".data ++ " B".data ∧
    jsReplaceSrcQuote c6full ("src=\"".data ++ c6path ++ "\"".data) =
      c6full.take 37 ++ ("src=\"".data ++ c6path ++ "\"".data) ++ c6full.drop 44 :=
  ⟨claim6_patch_amended.1 "no directive here".data c6tagX c6path (by decide),
   claim6_patch_amended.2.1 "A ".data "[IMG:GEN:x]".data " B".data "done".data
     (by decide) (by decide),
   claim6_patch_amended.2.2 c6full ("src=\"".data ++ c6path ++ "\"".data) 37 7 '\''
     (by decide) (by decide)⟩

/-- The C1 scenario message: one LEGACY directive. -/
def c1mes : Str := "The image [IMG:GEN:\x7b\"prompt\":\"a cat\"\x7d] appears.".data

/-- The C1 environment: extension enabled; generation succeeds with a fixed
stored path per directive. -/
def c1env : Env :=
  ⟨true, fun _ => false, fun _ i => "/user/images/c/iig_".data ++ natStr i ++ ".png".data⟩

/-- The C1 initial state: one assistant message, no in-flight markers, no
effects yet. -/
def c1s0 : SysState := ⟨[⟨c1mes, false⟩], [], []⟩

/-- C1 counterexample.  First conjunct: two triggers of
`processMessageTags(0)` interleaved at the awaited parse (schedule
0,1,0,1,...) — the second trigger starts while the first is in flight but
before the first has set the in-flight marker (the marker is only set AFTER
the awaited `parseImageTags`, src/index.js:1029 vs 1036) — produce TWO
generation calls for the single directive, refuting "exactly one batch of
side effects".  Second conjunct: a `regenerateMessageImages(0)` run clears
the in-flight marker BEFORE persistence completes (src/index.js:1307-1308),
refuting "the in-flight marker is cleared only after persistence of the
patched message completes". -/
theorem claim1_counterexample :
    countGenerates 0 (runSys c1env c1s0 [some (.pmtStart 0), some (.pmtStart 0)]
      [0, 1, 0, 1, 0, 1, 0, 1]).effects = 2 ∧
    (runSys c1env c1s0 [some (.regenStart 0)] [0, 0, 0, 0]).effects =
      [.setMarker 0, .generate 0 0, .clearMarker 0, .persist 0] :=
  ⟨by decide, by decide⟩

/-- C1 amended: a second trigger of `processMessageTags` for a message whose
in-flight marker is already set returns immediately with no state change and
no effects; and across any schedule of `processMessageTags` invocations the
marker-clear count for a message never exceeds its completed-persistence
count (the clear happens only in the `finally` after `saveChat`).  The
suppression does NOT extend to triggers arriving during the initial parse
await (before the marker is set), and `regenerateMessageImages` clears the
marker before persisting — see the counterexample. -/
theorem claim1_inflight_amended :
    (∀ (env : Env) (s : SysState) (mid : Nat), mid ∈ s.processing →
      stepSys env s (.pmtStart mid) = (s, none)) ∧
    (∀ (env : Env) (sched : List Nat) (s : SysState) (tasks : List (Option Task)),
      allPmt tasks = true →
      (∀ m, countClears m s.effects ≤ countPersists m s.effects) →
      ∀ m, countClears m (runSys env s tasks sched).effects ≤
        countPersists m (runSys env s tasks sched).effects) := by
  constructor
  · intro env s mid h
    by_cases he : env.enabled = false <;> simp [stepSys, he, h]
  · intro env sched s tasks h1 h2
    exact runSys_pmt_clear_le env sched s tasks h1 h2

/-- Witness for C1 amended: with the marker for message 0 set, a second
trigger is a no-op; and a complete double-trigger `processMessageTags` run
never has more clears than persists for message 0. -/
theorem claim1_inflight_amended_witness :
    stepSys c1env ⟨[⟨c1mes, false⟩], [0], []⟩ (.pmtStart 0) =
      (⟨[⟨c1mes, false⟩], [0], []⟩, none) ∧
    countClears 0 (runSys c1env c1s0 [some (.pmtStart 0), some (.pmtStart 0)]
        [0, 1, 0, 1, 0, 1, 0, 1]).effects ≤
      countPersists 0 (runSys c1env c1s0 [some (.pmtStart 0), some (.pmtStart 0)]
        [0, 1, 0, 1, 0, 1, 0, 1]).effects :=
  ⟨claim1_inflight_amended.1 c1env ⟨[⟨c1mes, false⟩], [0], []⟩ 0 (by decide),
   claim1_inflight_amended.2 c1env [0, 1, 0, 1, 0, 1, 0, 1] c1s0
     [some (.pmtStart 0), some (.pmtStart 0)] (by decide) (fun m => Nat.le_refl _) 0⟩

end IIG
